import Mathlib

/-!
Verification development for the find-package-rugaru data-collection and
normalization pipeline.  The definitions below are shallow embeddings of
the Python sources:

* `src/fpr/pipelines/postprocess.py` — output normalizer and row grouping;
* `src/gh_meta_client.py` — retrying query executor, paginated query
  builders, and the per-repository crawl client state operations.

Python JSON values are modelled by the inductive `Json` (numbers as
integers — all counters in the modelled data are integral), Python dicts
by insertion-ordered association lists, and raising code by `Option` /
`Except` results.
-/

/-- A parsed JSON document / Python value.  `obj` keeps the insertion
order of keys, matching Python dict semantics. -/
inductive Json where
  | null
  | bool (b : Bool)
  | num (n : Int)
  | str (s : String)
  | arr (elems : List Json)
  | obj (fields : List (String × Json))

/-- A Python dict with JSON values: insertion-ordered association list. -/
abbrev JObj := List (String × Json)

/-- Lookup in an insertion-ordered association list (Python `d.get(k)` /
`d[k]` success case). -/
def assocLookup (d : List (String × α)) (k : String) : Option α :=
  (d.find? (fun kv => kv.1 == k)).map (fun kv => kv.2)

/-- Python dict assignment `d[k] = v`: replaces the value in place when the
key is present (keeping its position), otherwise appends the new key. -/
def assocSet : List (String × α) → String → α → List (String × α)
  | [], k, v => [(k, v)]
  | kv :: rest, k, v =>
    if kv.1 == k then (k, v) :: rest else kv :: assocSet rest k v

/-- Python `d.get(k, default)`. -/
def dictGetD (d : JObj) (k : String) (dflt : Json) : Json :=
  (assocLookup d k).getD dflt

/-- Python `list(d.keys())` for an insertion-ordered dict. -/
def dictKeys (d : JObj) : List String := d.map (fun kv => kv.1)

/-- Python `d.update(u)`: assign every key of `u` into `d` in order. -/
def dictUpdate (d u : JObj) : JObj := u.foldl (fun acc kv => assocSet acc kv.1 kv.2) d

/-- Modelled from the spec: `fpr.serialize_util.get_in` (helper not under
`src/`) — walk `path` through nested dicts, returning `dflt` as soon as a
key is missing or a non-dict is reached. -/
def get_in (j : Json) (path : List String) (dflt : Json) : Json :=
  match path with
  | [] => j
  | k :: rest =>
    match j with
    | .obj kvs =>
      match assocLookup kvs k with
      | some v => get_in v rest dflt
      | none => dflt
    | _ => dflt

/-- Python `len` on a JSON value: defined for lists, dicts and strings,
a `TypeError` (`none`) otherwise. -/
def jsonLen : Json → Option Int
  | .arr xs => some xs.length
  | .obj kvs => some kvs.length
  | .str s => some s.length
  | _ => none

/-- Python `sum(d.values())` over a JSON dict: the sum of its values when
every value is a number, an error (`none`) otherwise (including non-dicts). -/
def sumValues : Json → Option Int
  | .obj kvs => kvs.foldlM (fun acc kv => match kv.2 with | .num n => some (acc + n) | _ => none) 0
  | _ => none

/-- Python `j == s` for a string literal `s`: true only when `j` is that
string (comparing a string to any other value is `False`, not an error). -/
def jsonEqStr (j : Json) (s : String) : Bool :=
  match j with
  | .str t => t == s
  | _ => false

/-- Package record produced by normalization (`fpr.models.nodejs.NPMPackage`,
fields per the spec's PackageRecord: name, resolved version, optional source
URL, ordered list of dependent specifiers). -/
structure NPMPackage where
  name : String
  version : String
  resolved : Option String
  dependencies : List String
deriving DecidableEq

/-- Python `dataclasses.asdict` on an `NPMPackage`. -/
def npmPackageToJson (p : NPMPackage) : Json :=
  .obj [("name", .str p.name), ("version", .str p.version),
        ("resolved", match p.resolved with | some r => .str r | none => .null),
        ("dependencies", .arr (p.dependencies.map Json.str))]

/-- Dependent specifier `name@version` for a child entry of a Shape A
`dependencies` map. -/
def specifierOf (childName : String) (child : Json) : String :=
  childName ++ "@" ++ (match child with
    | .obj ckvs => match assocLookup ckvs "version" with | some (.str v) => v | _ => ""
    | _ => "")

/-- Package record for one node of a Shape A dependency tree, read off the
node's own JSON object. -/
def pkgFromKvs (name : String) (kvs : JObj) : NPMPackage :=
  { name := name
    version := match assocLookup kvs "version" with | some (.str v) => v | _ => ""
    resolved := match assocLookup kvs "resolved" with | some (.str r) => some r | _ => none
    dependencies := match assocLookup kvs "dependencies" with
      | some (.obj deps) => deps.map (fun kv => specifierOf kv.1 kv.2)
      | _ => [] }

mutual

/-- Modelled from the spec: `fpr.models.nodejs.flatten_deps` (not under
`src/`) — flatten a Shape A dependency tree (keyed by name, with nested
`dependencies` maps) into a list of package records, children first and the
distinguished root node last (the caller reads the root as `deps[-1]`). -/
def flattenNode (name : String) (j : Json) : List NPMPackage :=
  match j with
  | .obj kvs => flattenKvs kvs ++ [pkgFromKvs name kvs]
  | _ => [{ name := name, version := "", resolved := none, dependencies := [] }]

/-- Walk a node's fields looking for its `dependencies` map. -/
def flattenKvs : List (String × Json) → List NPMPackage
  | [] => []
  | (k, v) :: rest =>
    (if k == "dependencies" then flattenDepsObj v else []) ++ flattenKvs rest

/-- Flatten the value of a `dependencies` field (a map from child name to
child node). -/
def flattenDepsObj : Json → List NPMPackage
  | .obj deps => flattenEntries deps
  | _ => []

/-- Flatten each child entry of a `dependencies` map in order. -/
def flattenEntries : List (String × Json) → List NPMPackage
  | [] => []
  | (n, child) :: rest => flattenNode n child ++ flattenEntries rest

end

/-- Modelled from the spec: entry point of the tree flattening — the parsed
`npm list --json` document is itself the root node. -/
def flatten_deps (parsed_stdout : Json) : List NPMPackage :=
  flattenNode
    (match parsed_stdout with
     | .obj kvs => match assocLookup kvs "name" with | some (.str n) => n | _ => ""
     | _ => "")
    parsed_stdout

/-- A dependent specifier is fully qualified when it carries an `@version`
suffix. -/
def isFullyQualified (s : String) : Bool := s.toList.any (fun c => c == '@')

/-- Modelled from the spec: `fpr.graph_util.get_graph_stats` composed with
`npm_packages_to_networkx_digraph` (not under `src/`) — summary statistics
of the dependency graph: deduplicated `(name, version)` node count and the
count of fully-qualified specifier links; empty for an empty input
(`parse_npm_list` passes `dict()` then). -/
def graph_stats (deps : List NPMPackage) : JObj :=
  if deps.isEmpty then []
  else
    [("node_count", .num ((deps.map (fun d => (d.name, d.version))).eraseDups).length),
     ("edge_count", .num (deps.foldl (fun acc d => acc + (d.dependencies.filter isFullyQualified).length) 0))]

/-- `postprocess.parse_npm_list`: normalize a parsed Shape A
`npm list --json` document.  `none` models the `TypeError` raised by
`len(...)` when the document's `problems` field is not a sized value. -/
def parse_npm_list (parsed_stdout : Json) : Option JObj :=
  let deps := flatten_deps parsed_stdout
  let problems := get_in parsed_stdout ["problems"] (.arr [])
  match jsonLen problems with
  | none => none
  | some problemsCount =>
    some [("problems", problems),
          ("dependencies", .arr (deps.map npmPackageToJson)),
          ("dependencies_count", .num deps.length),
          ("problems_count", .num problemsCount),
          ("root", match deps.getLast? with | some d => npmPackageToJson d | none => .null),
          ("direct_dependencies_count",
            match deps.getLast? with | some d => .num d.dependencies.length | none => .null),
          ("graph_stats", .obj (graph_stats deps))]

/-- Modelled from the spec: `NPMPackage.from_yarn_tree_line` (not under
`src/`) — one flattened dependency entry of a Shape B `tree` record: the
`name` field is a fully-qualified `name@version` string, the `children`
carry the dependent specifiers. -/
def NPMPackage.from_yarn_tree_line (j : Json) : NPMPackage :=
  let nv := match get_in j ["name"] .null with
    | .str s =>
      let parts := s.splitOn "@"
      match parts with
      | [] => (s, "")
      | [x] => (x, "")
      | _ => (String.intercalate "@" parts.dropLast, parts.getLastD "")
    | _ => ("", "")
  { name := nv.1, version := nv.2, resolved := none,
    dependencies :=
      match get_in j ["children"] .null with
      | .arr cs => cs.filterMap (fun c =>
          match get_in c ["name"] .null with | .str s => some s | _ => none)
      | _ => [] }

/-- One iteration of the `parse_yarn_list` line loop: a `tree` record
extends the accumulated package list with its `trees` entries (`none`
models the `KeyError`/`TypeError` when `data["trees"]` is missing or not a
list); any other record type is logged and skipped. -/
def yarn_list_step (deps : List NPMPackage) (line : JObj) : Option (List NPMPackage) :=
  let line_type := dictGetD line "type" Json.null
  let line_data := dictGetD line "data" (Json.obj [])
  if jsonEqStr line_type "tree" then
    match line_data with
    | .obj kvs =>
      match assocLookup kvs "trees" with
      | some (.arr ts) => some (deps ++ ts.map NPMPackage.from_yarn_tree_line)
      | _ => none
    | _ => none
  else some deps

/-- `postprocess.parse_yarn_list`: normalize Shape B `yarn list --json`
records.  `yarn list` has no root, so `root` and
`direct_dependencies_count` are always null. -/
def parse_yarn_list (parsed_stdout : List JObj) : Option JObj :=
  (parsed_stdout.foldlM yarn_list_step []).map (fun deps =>
    [("dependencies", .arr (deps.map npmPackageToJson)),
     ("dependencies_count", .num deps.length),
     ("root", .null),
     ("direct_dependencies_count", .null),
     ("graph_stats", .obj [])])

/-- `postprocess.parse_npm_audit`: normalize a parsed Shape A
`npm audit --json` document.  `advisories` and `metadata.vulnerabilities`
fall back to empty dicts when null; `vulnerabilities_count` is the sum of
the severity-count map's values (`none` models the `TypeError`/
`AttributeError` when that map is not a dict of numbers). -/
def parse_npm_audit (parsed_stdout : Json) : Option JObj :=
  let advisories0 := get_in parsed_stdout ["advisories"] .null
  let vulnerabilities0 := get_in parsed_stdout ["metadata", "vulnerabilities"] .null
  let advisories := match advisories0 with | .null => Json.obj [] | a => a
  let vulnerabilities := match vulnerabilities0 with | .null => Json.obj [] | v => v
  (sumValues vulnerabilities).map (fun total =>
    [("dependencies_count", get_in parsed_stdout ["metadata", "dependencies"] .null),
     ("dev_dependencies_count", get_in parsed_stdout ["metadata", "devDependencies"] .null),
     ("optional_dependencies_count", get_in parsed_stdout ["metadata", "optionalDependencies"] .null),
     ("total_dependencies_count", get_in parsed_stdout ["metadata", "totalDependencies"] .null),
     ("vulnerabilities", vulnerabilities),
     ("advisories", advisories),
     ("error", get_in parsed_stdout ["error"] .null),
     ("vulnerabilities_count", .num total)])

/-- The fields `parse_yarn_audit` extracts from an `auditSummary` record's
data. -/
def auditSummaryFields (line_data : Json) : JObj :=
  [("dependencies_count", get_in line_data ["dependencies"] .null),
   ("dev_dependencies_count", get_in line_data ["devDependencies"] .null),
   ("optional_dependencies_count", get_in line_data ["optionalDependencies"] .null),
   ("total_dependencies_count", get_in line_data ["totalDependencies"] .null),
   ("vulnerabilities", get_in line_data ["vulnerabilities"] .null)]

/-- One iteration of the `parse_yarn_audit` line loop: an `auditAdvisory`
record appends its data to the `advisories` list; an `auditSummary` record
merges its aggregate counts and recomputes `vulnerabilities_count` (`none`
models the error when the summary's severity map is not a dict of
numbers); other record types are logged and skipped. -/
def yarn_audit_step (updates : JObj) (line : JObj) : Option JObj :=
  let line_type := dictGetD line "type" Json.null
  let line_data := dictGetD line "data" (Json.obj [])
  if jsonEqStr line_type "auditAdvisory" then
    match assocLookup updates "advisories" with
    | some (.arr advs) => some (assocSet updates "advisories" (.arr (advs ++ [line_data])))
    | _ => none
  else if jsonEqStr line_type "auditSummary" then
    let updates1 := dictUpdate updates (auditSummaryFields line_data)
    match assocLookup updates1 "vulnerabilities" with
    | some v => (sumValues v).map (fun total => assocSet updates1 "vulnerabilities_count" (Json.num total))
    | none => none
  else some updates

/-- `postprocess.parse_yarn_audit`: normalize Shape B `yarn audit --json`
records, starting from `{advisories: []}`. -/
def parse_yarn_audit (parsed_stdout : List JObj) : Option JObj :=
  parsed_stdout.foldlM yarn_audit_step [("advisories", Json.arr [])]

/-- `postprocess.parse_stdout_as_json`: the captured stdout is either
absent (`none`), or the outcome of `json.loads` on it — a parse error is
logged as a warning and yields `None`. -/
def parse_stdout_as_json (stdout : Option (Except String Json)) : Option Json :=
  match stdout with
  | none => none
  | some (.ok parsed) => some parsed
  | some (.error _) => none

/-- Whether one line's `json.loads` outcome is a decode error. -/
def exceptIsError (e : Except String Json) : Bool :=
  match e with
  | .error _ => true
  | .ok _ => false

/-- `postprocess.parse_stdout_as_jsonlines`: stdout is absent, or a list of
per-line `json.loads` outcomes; any decode error is logged and yields
`None`, otherwise the lines that are dicts are kept (`iter_jsonlines` is
modelled from the spec: parse each line, and only dict lines survive the
`isinstance(line, dict)` filter). -/
def parse_stdout_as_jsonlines (stdout : Option (List (Except String Json))) : Option (List JObj) :=
  match stdout with
  | none => none
  | some lines =>
    if lines.any exceptIsError then none
    else some (lines.filterMap (fun l =>
      match l with
      | .ok (.obj kvs) => some kvs
      | _ => none))

/-- `postprocess.parse_npm_task`: parse the task's stdout as a single JSON
document, returning `None` (logged) when it does not parse, then dispatch
on the task name; an unknown task name raises `NotImplementedError`. -/
def parse_npm_task (task_name : String) (stdout : Option (Except String Json)) :
    Except String (Option JObj) :=
  match parse_stdout_as_json stdout with
  | none => .ok none
  | some parsed_stdout =>
    if task_name == "list_metadata" then .ok (parse_npm_list parsed_stdout)
    else if task_name == "audit" then .ok (parse_npm_audit parsed_stdout)
    else if task_name == "install" then .ok none
    else .error "NotImplementedError"

/-- `postprocess.parse_yarn_task`: parse the task's stdout as JSON lines,
returning `None` (logged) when they do not parse, then dispatch on the
task name; an unknown task name raises `NotImplementedError`. -/
def parse_yarn_task (task_name : String) (stdout : Option (List (Except String Json))) :
    Except String (Option JObj) :=
  match parse_stdout_as_jsonlines stdout with
  | none => .ok none
  | some parsed_stdout =>
    if task_name == "list_metadata" then .ok (parse_yarn_list parsed_stdout)
    else if task_name == "audit" then .ok (parse_yarn_audit parsed_stdout)
    else if task_name == "install" then .ok none
    else .error "NotImplementedError"

/-- The `if updates: result["tasks"][task_name].update(updates)` step of
`run_pipeline`: a `None` or empty (falsy) update dict leaves the already
extracted task record unchanged; the record is emitted either way. -/
def apply_task_updates (taskRecord : JObj) (updates : Option JObj) : JObj :=
  match updates with
  | some u => if u.isEmpty then taskRecord else dictUpdate taskRecord u
  | none => taskRecord

/-- The per-row npm branch of `run_pipeline`'s task loop: run
`parse_npm_task` on the captured stdout and apply whatever updates it
returns to the task record built from the extracted task fields. -/
def process_npm_task_row (task_name : String) (taskFields : JObj)
    (stdout : Option (Except String Json)) : Except String JObj :=
  (parse_npm_task task_name stdout).map (fun updates => apply_task_updates taskFields updates)

/-- The per-row yarn branch of `run_pipeline`'s task loop. -/
def process_yarn_task_row (task_name : String) (taskFields : JObj)
    (stdout : Option (List (Except String Json))) : Except String JObj :=
  (parse_yarn_task task_name stdout).map (fun updates => apply_task_updates taskFields updates)

/-- One dependency file of an input row (`fpr.models.language.DependencyFile`:
relative path and sha256 hex digest). -/
structure DepFileRec where
  path : String
  sha256 : String
deriving DecidableEq

/-- One input row of `group_by_org_repo_ref_path`, read off the parsed
JSONL item: the `org/repo` key, the git ref value, the row's dependency
files, and an identifier standing for the raw item carried alongside. -/
structure Row where
  org_repo : String
  ref_value : String
  dep_files : List DepFileRec
  payload : Nat
deriving DecidableEq

/-- The grouping key `itertools.groupby` is given in
`group_by_org_repo_ref_path`: org/repo, ref value, first dependency file
sha256, and the second dependency file sha256 when present. -/
structure GroupKey where
  org_repo : String
  ref_value : String
  first_sha256 : String
  second_sha256 : Option String
deriving DecidableEq

/-- The key function of the `itertools.groupby` call: `row[2][0]` raises an
`IndexError` (`none`) when the row has no dependency files. -/
def rowKey (r : Row) : Option GroupKey :=
  match r.dep_files with
  | [] => none
  | d0 :: rest =>
    some { org_repo := r.org_repo, ref_value := r.ref_value, first_sha256 := d0.sha256,
           second_sha256 := match rest with | [] => none | d1 :: _ => some d1.sha256 }

/-- `postprocess.group_by_org_repo_ref_path`: the function's `sorted(...)`
calls discard their results (Python `sorted` returns a new list and the
return values are never assigned), so the rows reach `itertools.groupby`
in input order and are grouped into maximal runs of adjacent rows with
equal keys.  `none` models the `IndexError` raised by the key function on
a row with no dependency files. -/
def group_by_org_repo_ref_path : List Row → Option (List (GroupKey × List Row))
  | [] => some []
  | r :: rest =>
    match rowKey r with
    | none => none
    | some k =>
      let run := rest.takeWhile (fun x => decide (rowKey x = some k))
      let rest' := rest.dropWhile (fun x => decide (rowKey x = some k))
      match group_by_org_repo_ref_path rest' with
      | none => none
      | some gs => some ((k, r :: run) :: gs)
termination_by l => l.length
decreasing_by
  simp only [List.length_cons]
  exact Nat.lt_succ_of_le (List.dropWhile_sublist _).length_le

/-- Outcome of one executor invocation inside `async_query`: a successful
result, a `quiz.ErrorResponse` carrying the `type` field of each error
entry, or a `quiz.HTTPError` carrying the response status and the
`Retry-After` / `X-RateLimit-Reset` headers together with the current
clock reading `int(time.time())`. -/
inductive QueryOutcome where
  | success (value : Nat)
  | errorResponse (errorTypes : List (Option String))
  | httpError (status : Int) (retryAfter : Option Int) (resetAt : Option Int) (now : Int)

/-- Observable trace of one `async_query` call: the returned value (`none`
when the loop ends without a successful result), the backoff sleeps
performed in order, and the number of executor invocations. -/
structure RunTrace where
  result : Option Nat
  sleeps : List Int
  attempts : Nat
deriving DecidableEq

/-- The `ErrorResponse` NOT_FOUND test of `async_query`:
`len(err.errors) and err.errors[0].get("type", None) == "NOT_FOUND"`. -/
def isNotFoundErrors (errorTypes : List (Option String)) : Bool :=
  match errorTypes with
  | some t :: _ => t == "NOT_FOUND"
  | _ => false

/-- Sleep chosen by the 403/503 branch of `async_query` on attempt
`tryNum`: a positive `Retry-After` wins; else a future `X-RateLimit-Reset`
is waited out; else the exponential backoff `2 ^ tryNum + 60`. -/
def rateLimitedSleep (tryNum : Nat) (retryAfter resetAt : Option Int) (now : Int) : Int :=
  match retryAfter with
  | some ra =>
    if 0 < ra then ra
    else
      match resetAt with
      | some resetTime => if 0 < resetTime - now then resetTime - now else 2 ^ tryNum + 60
      | none => 2 ^ tryNum + 60
  | none =>
    match resetAt with
    | some resetTime => if 0 < resetTime - now then resetTime - now else 2 ^ tryNum + 60
    | none => 2 ^ tryNum + 60

/-- The retry loop of `gh_meta_client.async_query`, by remaining fuel
(`max_tries - try_num`); `outcomes n` is what the executor does on attempt
`n`.  A success or a terminal classification (`NOT_FOUND` error entry,
HTTP 404) breaks out; an `ErrorResponse` backs off exponentially; HTTP
403/503 sleeps per `rateLimitedSleep`; any other HTTP error retries with
no sleep at all.  When the fuel runs out the result left behind by the
last failed attempt — `None` — is returned. -/
def async_query_go (outcomes : Nat → QueryOutcome) (tryNum : Nat) : Nat → RunTrace
  | 0 => { result := none, sleeps := [], attempts := 0 }
  | fuel + 1 =>
    match outcomes tryNum with
    | .success v => { result := some v, sleeps := [], attempts := 1 }
    | .errorResponse errorTypes =>
      if isNotFoundErrors errorTypes then { result := none, sleeps := [], attempts := 1 }
      else
        let rest := async_query_go outcomes (tryNum + 1) fuel
        { result := rest.result, sleeps := ((2 : Int) ^ tryNum + 60) :: rest.sleeps,
          attempts := rest.attempts + 1 }
    | .httpError status retryAfter resetAt now =>
      if status == 404 then { result := none, sleeps := [], attempts := 1 }
      else if status == 403 || status == 503 then
        let rest := async_query_go outcomes (tryNum + 1) fuel
        { result := rest.result,
          sleeps := rateLimitedSleep tryNum retryAfter resetAt now :: rest.sleeps,
          attempts := rest.attempts + 1 }
      else
        let rest := async_query_go outcomes (tryNum + 1) fuel
        { result := rest.result, sleeps := rest.sleeps, attempts := rest.attempts + 1 }

/-- `gh_meta_client.async_query` with its hard cap `max_tries = 15`,
starting at `try_num = 0`. -/
def async_query (outcomes : Nat → QueryOutcome) : RunTrace :=
  async_query_go outcomes 0 15

/-- A failure outcome classified retryable by the spec's taxonomy: a
`TransientError` (`ErrorResponse` that is not NOT_FOUND) or a
`RateLimited`/`ServerUnavailable` HTTP 403/503. -/
def isRetryable (o : QueryOutcome) : Bool :=
  match o with
  | .success _ => false
  | .errorResponse errorTypes => !(isNotFoundErrors errorTypes)
  | .httpError status _ _ _ => status == 403 || status == 503

/-- Argument of a graph query selection. -/
inductive GqlArg where
  | nat (n : Nat)
  | str (s : String)
deriving DecidableEq

/-- One selection of a graph query: field name, arguments, sub-selections.
Building a query is pure data — no I/O. -/
inductive Sel where
  | mk (name : String) (args : List (String × GqlArg)) (children : List Sel)

/-- Field name of a selection. -/
def Sel.name : Sel → String
  | .mk n _ _ => n

/-- Arguments of a selection. -/
def Sel.args : Sel → List (String × GqlArg)
  | .mk _ a _ => a

/-- Sub-selections of a selection. -/
def Sel.children : Sel → List Sel
  | .mk _ _ c => c

/-- A scalar field selection. -/
def leaf (n : String) : Sel := .mk n [] []

/-- The `rateLimit[limit, cost, remaining, resetAt]` selection present in
every query builder. -/
def rateLimitSel : Sel :=
  .mk "rateLimit" [] [leaf "limit", leaf "cost", leaf "remaining", leaf "resetAt"]

/-- The `pageInfo[hasNextPage, endCursor]` selection. -/
def pageInfoSel : Sel := .mk "pageInfo" [] [leaf "hasNextPage", leaf "endCursor"]

/-- `gh_meta_client.repo_langs_query`: the language-axis query builder.
With an `after` cursor it selects only the languages connection page; with
no cursor it additionally requests the one-time repository scalar fields
and the connection totals. -/
def repo_langs_query (org_name repo_name : String) (first : Nat) (after : Option String) :
    List Sel :=
  match after with
  | some cursor =>
    [rateLimitSel,
     .mk "repository" [("owner", .str org_name), ("name", .str repo_name)]
       [.mk "languages" [("after", .str cursor), ("first", .nat first)]
         [pageInfoSel,
          .mk "edges" [] [.mk "node" [] [leaf "id", leaf "name"]]]]]
  | none =>
    [rateLimitSel,
     .mk "repository" [("owner", .str org_name), ("name", .str repo_name)]
       [leaf "createdAt", leaf "updatedAt", leaf "description", leaf "isArchived",
        leaf "isPrivate", leaf "isFork",
        .mk "languages" [("first", .nat first)]
          [pageInfoSel, leaf "totalCount", leaf "totalSize",
           .mk "edges" [] [.mk "node" [] [leaf "id", leaf "name"]]]]]

/-- `gh_meta_client.repo_manifests_query`: the manifest-axis query builder.
Both branches of the source build the same selection tree over
`dependencyGraphManifests`; only the `after` argument differs. -/
def repo_manifests_query (org_name repo_name : String) (first : Nat) (after : Option String) :
    List Sel :=
  match after with
  | some cursor =>
    [rateLimitSel,
     .mk "repository" [("owner", .str org_name), ("name", .str repo_name)]
       [.mk "dependencyGraphManifests" [("first", .nat first), ("after", .str cursor)]
         [pageInfoSel, leaf "totalCount",
          .mk "edges" []
            [.mk "node" []
              [leaf "id", leaf "blobPath", leaf "dependenciesCount", leaf "exceedsMaxSize",
               leaf "filename", leaf "parseable",
               .mk "dependencies" [("first", .nat first)]
                 [pageInfoSel, leaf "totalCount",
                  .mk "nodes" []
                    [leaf "packageName", leaf "packageManager", leaf "hasDependencies",
                     leaf "requirements"]]]]]]]
  | none =>
    [rateLimitSel,
     .mk "repository" [("owner", .str org_name), ("name", .str repo_name)]
       [.mk "dependencyGraphManifests" [("first", .nat first)]
         [pageInfoSel, leaf "totalCount",
          .mk "edges" []
            [.mk "node" []
              [leaf "id", leaf "blobPath", leaf "dependenciesCount", leaf "exceedsMaxSize",
               leaf "filename", leaf "parseable",
               .mk "dependencies" [("first", .nat first)]
                 [pageInfoSel, leaf "totalCount",
                  .mk "nodes" []
                    [leaf "packageName", leaf "packageManager", leaf "hasDependencies",
                     leaf "requirements"]]]]]]]

/-- First selection with the given field name. -/
def findSel (n : String) (sels : List Sel) : Option Sel :=
  sels.find? (fun s => Sel.name s == n)

/-- Field names selected directly under `repository`. -/
def repositoryChildNames (q : List Sel) : List String :=
  match findSel "repository" q with
  | some s => (Sel.children s).map Sel.name
  | none => []

/-- Field names selected under the `languages` connection. -/
def languagesChildNames (q : List Sel) : List String :=
  match findSel "repository" q with
  | some r =>
    match findSel "languages" (Sel.children r) with
    | some l => (Sel.children l).map Sel.name
    | none => []
  | none => []

/-- The `dependencyGraphManifests` connection selection of a query. -/
def manifestsConnSel (q : List Sel) : Option Sel :=
  match findSel "repository" q with
  | some r => findSel "dependencyGraphManifests" (Sel.children r)
  | none => none

/-- Field names selected under the `dependencyGraphManifests` connection. -/
def manifestsChildNames (q : List Sel) : List String :=
  match manifestsConnSel q with
  | some m => (Sel.children m).map Sel.name
  | none => []

/-- The `edges` subtree of the `dependencyGraphManifests` connection
(everything below the connection header, arguments included). -/
def manifestsEdgesSel (q : List Sel) : Option Sel :=
  match manifestsConnSel q with
  | some m => findSel "edges" (Sel.children m)
  | none => none

/-- A language node returned by the languages connection. -/
structure LangNode where
  id : String
  name : String
deriving DecidableEq

/-- A language edge (`repo.repository.languages.edges` element). -/
structure LangEdge where
  node : LangNode
deriving DecidableEq

/-- Page info of a paginated connection. -/
structure PageInfo where
  hasNextPage : Bool
  endCursor : Option String
deriving DecidableEq

/-- The languages connection of a repository response. -/
structure LanguagesConn where
  pageInfo : PageInfo
  edges : List LangEdge
deriving DecidableEq

/-- One dependency node of a manifest's dependencies connection. -/
structure DepNode where
  packageName : String
  requirements : String
deriving DecidableEq

/-- The dependencies connection of one manifest node. -/
structure DepsConn where
  nodes : List DepNode
deriving DecidableEq

/-- One manifest node (`dependencyGraphManifests` edge node). -/
structure ManifestNode where
  id : String
  blobPath : String
  dependencies : DepsConn
deriving DecidableEq

/-- One manifest edge. -/
structure ManifestEdge where
  node : ManifestNode
deriving DecidableEq

/-- The dependencyGraphManifests connection of a repository response. -/
structure ManifestsConn where
  pageInfo : PageInfo
  edges : List ManifestEdge
deriving DecidableEq

/-- The repository object of a language-axis response. -/
structure RepoLangs where
  languages : LanguagesConn
deriving DecidableEq

/-- The repository object of a manifest-axis response. -/
structure RepoManifests where
  dependencyGraphManifests : ManifestsConn
deriving DecidableEq

/-- A language-axis query result: `repository` may resolve to null. -/
structure LangsResult where
  repository : Option RepoLangs
deriving DecidableEq

/-- A manifest-axis query result: `repository` may resolve to null. -/
structure ManifestsResult where
  repository : Option RepoManifests
deriving DecidableEq

/-- Cached pagination parameters for re-reaching one manifest's dependency
page (`GHClient.get_dep_files` records them per manifest id). -/
structure QueryParams where
  cursor : Option String
  first : Nat
deriving DecidableEq

/-- `fpr.models.OrgRepo` as used by `GHClient`: the immutable org/repo
identity plus the mutable per-repository accumulators. -/
structure OrgRepo where
  org : String
  repo : String
  languages : List LangEdge
  dep_files : List ManifestEdge
  dep_file_query_params : List (String × QueryParams)
  dep_file_deps : List (String × List DepNode)

/-- Failures of the crawl client operations: the explicit exception on a
null repository, Python `AttributeError` on attribute access through
`None`, a failed `assert`, and `KeyError` on a missing dict key. -/
inductive GHError where
  | upstreamNull
  | attributeError
  | assertionError
  | keyError
deriving DecidableEq

/-- `GHClient.get_org_repo_langs`: raises when the query returned `None` or
a null repository, asserts the single page is the last one, then EXTENDS
`org_repo.languages` with the returned edges.  The (mocked) query response
is passed in, since issuing it is the executor's job. -/
def get_org_repo_langs (resp : Option LangsResult) (org_repo : OrgRepo) :
    Except GHError OrgRepo :=
  match resp with
  | none => .error .upstreamNull
  | some result =>
    match result.repository with
    | none => .error .upstreamNull
    | some repository =>
      if repository.languages.pageInfo.hasNextPage then .error .assertionError
      else .ok { org_repo with languages := org_repo.languages ++ repository.languages.edges }

/-- One iteration of `GHClient.get_dep_files`'s loop over the returned
manifest edges: the dict assignment
`org_repo.dep_file_query_params[edge.node.id] = dict(cursor=cursor, first=...)`. -/
def get_dep_files_step (cursor : Option String) (dep_file_page_size : Nat)
    (acc : OrgRepo) (edge : ManifestEdge) : OrgRepo :=
  let qp : QueryParams := { cursor := cursor, first := dep_file_page_size }
  { acc with dep_file_query_params := assocSet acc.dep_file_query_params edge.node.id qp }

/-- `GHClient.get_dep_files`: accesses the response without a null check
(`AttributeError` on `None`), asserts the single page is the last one,
EXTENDS `org_repo.dep_files` with the returned manifest edges, and records
for every returned manifest id the end cursor and page size needed to
re-reach its dependency page (a dict assignment, overwriting by key). -/
def get_dep_files (resp : Option ManifestsResult) (org_repo : OrgRepo)
    (dep_file_page_size : Nat) : Except GHError OrgRepo :=
  match resp with
  | none => .error .attributeError
  | some result =>
    match result.repository with
    | none => .error .attributeError
    | some repository =>
      if repository.dependencyGraphManifests.pageInfo.hasNextPage then .error .assertionError
      else
        let cursor := repository.dependencyGraphManifests.pageInfo.endCursor
        let withFiles :=
          { org_repo with dep_files := org_repo.dep_files ++ repository.dependencyGraphManifests.edges }
        .ok (repository.dependencyGraphManifests.edges.foldl
          (get_dep_files_step cursor dep_file_page_size) withFiles)

/-- One iteration of `GHClient.get_deps`'s loop over the returned manifest
edges: assign `org_repo.dep_file_deps[dep_file.id]` when and only when the
edge's node id equals the requested manifest's id. -/
def get_deps_step (dep_file : ManifestNode) (acc : OrgRepo) (manifest_edge : ManifestEdge) :
    OrgRepo :=
  if manifest_edge.node.id == dep_file.id then
    { acc with dep_file_deps :=
        assocSet acc.dep_file_deps dep_file.id manifest_edge.node.dependencies.nodes }
  else acc

/-- `GHClient.get_deps`: looks up the manifest's cached query parameters
(`KeyError` when absent), accesses the response repository without a null
check, assigns `org_repo.dep_file_deps[dep_file.id]` from every returned
manifest edge whose node id equals the requested manifest's id, then reads
`org_repo.dep_file_deps[dep_file.id]` back for logging — a `KeyError` when
no edge matched and no earlier call had set the entry. -/
def get_deps (resp : Option ManifestsResult) (org_repo : OrgRepo) (dep_file : ManifestNode) :
    Except GHError OrgRepo :=
  match assocLookup org_repo.dep_file_query_params dep_file.id with
  | none => .error .keyError
  | some _ =>
    match resp with
    | none => .error .attributeError
    | some result =>
      match result.repository with
      | none => .error .attributeError
      | some repository =>
        let repo' := repository.dependencyGraphManifests.edges.foldl
          (get_deps_step dep_file) org_repo
        match assocLookup repo'.dep_file_deps dep_file.id with
        | none => .error .keyError
        | some _ => .ok repo'

/-- The last returned manifest edge whose node id matches the requested
manifest (the one whose dependency nodes survive `get_deps`'s loop). -/
def lastMatchingEdge (dep_file : ManifestNode) (edges : List ManifestEdge) :
    Option ManifestEdge :=
  (edges.filter (fun e => e.node.id == dep_file.id)).getLast?

/-- The language edges carried by a language-axis response (empty when the
response or its repository is absent). -/
def langsRespEdges (resp : Option LangsResult) : List LangEdge :=
  match resp with
  | some result =>
    match result.repository with
    | some repository => repository.languages.edges
    | none => []
  | none => []

/-- The manifest edges carried by a manifest-axis response (empty when the
response or its repository is absent). -/
def manifestsRespEdges (resp : Option ManifestsResult) : List ManifestEdge :=
  match resp with
  | some result =>
    match result.repository with
    | some repository => repository.dependencyGraphManifests.edges
    | none => []
  | none => []

/-- Key set of a `parse_yarn_audit` result that has seen an `auditSummary`
record, in insertion order. -/
def auditSummaryKeys : List String :=
  ["advisories", "dependencies_count", "dev_dependencies_count",
   "optional_dependencies_count", "total_dependencies_count", "vulnerabilities",
   "vulnerabilities_count"]

/-- Whether a Shape B record is an `auditSummary` record. -/
def isSummaryLine (line : JObj) : Bool :=
  jsonEqStr (dictGetD line "type" Json.null) "auditSummary"

/-- The audit invariant: the `vulnerabilities_count` field equals the sum
of the values of the `vulnerabilities` severity-count mapping (both absent
counts as vacuously consistent). -/
def vulnCountConsistent (u : JObj) : Prop :=
  assocLookup u "vulnerabilities_count" =
    ((assocLookup u "vulnerabilities").bind sumValues).map Json.num

/-! ### Concrete example inputs and outputs used by witnesses -/

/-- A small valid Shape A `npm audit --json` document. -/
def exAuditDoc : Json :=
  .obj [("advisories", .null),
        ("metadata", .obj [("vulnerabilities", .obj [("low", .num 1), ("high", .num 2)]),
                           ("dependencies", .num 10)])]

/-- The normalized record `parse_npm_audit` produces for `exAuditDoc`. -/
def exAuditRes : JObj :=
  [("dependencies_count", .num 10),
   ("dev_dependencies_count", .null),
   ("optional_dependencies_count", .null),
   ("total_dependencies_count", .null),
   ("vulnerabilities", .obj [("low", .num 1), ("high", .num 2)]),
   ("advisories", .obj []),
   ("error", .null),
   ("vulnerabilities_count", .num 3)]

/-- A Shape B `auditSummary` record. -/
def exYarnSummaryLine : JObj :=
  [("type", .str "auditSummary"),
   ("data", .obj [("vulnerabilities", .obj [("low", .num 2)]), ("dependencies", .num 5)])]

/-- The normalized record `parse_yarn_audit` produces for the single-line
input `[exYarnSummaryLine]`. -/
def exYarnAuditRes : JObj :=
  [("advisories", .arr []),
   ("dependencies_count", .num 5),
   ("dev_dependencies_count", .null),
   ("optional_dependencies_count", .null),
   ("total_dependencies_count", .null),
   ("vulnerabilities", .obj [("low", .num 2)]),
   ("vulnerabilities_count", .num 2)]

/-- The normalized record `parse_npm_list` produces for the empty document. -/
def exNpmListRes : JObj :=
  [("problems", .arr []),
   ("dependencies", .arr [.obj [("name", .str ""), ("version", .str ""), ("resolved", .null),
                                ("dependencies", .arr [])]]),
   ("dependencies_count", .num 1),
   ("problems_count", .num 0),
   ("root", .obj [("name", .str ""), ("version", .str ""), ("resolved", .null),
                  ("dependencies", .arr [])]),
   ("direct_dependencies_count", .num 0),
   ("graph_stats", .obj [("node_count", .num 1), ("edge_count", .num 0)])]

/-- The normalized record `parse_yarn_list` produces for the empty input. -/
def exYarnListRes : JObj :=
  [("dependencies", .arr []),
   ("dependencies_count", .num 0),
   ("root", .null),
   ("direct_dependencies_count", .null),
   ("graph_stats", .obj [])]

/-- Task fields extracted by `run_pipeline` for one task record. -/
def c4fields : JObj :=
  [("command", .str "npm list --json"), ("container_name", .str "c"),
   ("exit_code", .num 0), ("name", .str "list_metadata"),
   ("relative_path", .str "."), ("working_dir", .str "/repo")]

/-- One language node of a mocked language-axis response. -/
def exLangNode : LangNode := ⟨"lid", "Python"⟩

/-- One language edge of a mocked language-axis response. -/
def exLangEdge : LangEdge := ⟨exLangNode⟩

/-- A mocked single-language, single-page language-axis response. -/
def exLangsResp : Option LangsResult := some ⟨some ⟨⟨⟨false, some "cur"⟩, [exLangEdge]⟩⟩⟩

/-- A freshly created per-repository accumulator. -/
def exRepo0 : OrgRepo := ⟨"o", "r", [], [], [], []⟩

/-- `exRepo0` after one `get_org_repo_langs` call against `exLangsResp`. -/
def exLangs1 : OrgRepo := ⟨"o", "r", [exLangEdge], [], [], []⟩

/-- `exRepo0` after two `get_org_repo_langs` calls against `exLangsResp`. -/
def exLangs2 : OrgRepo := ⟨"o", "r", [exLangEdge, exLangEdge], [], [], []⟩

/-- One dependency node of a mocked manifest-axis response. -/
def exDepNode : DepNode := ⟨"pkg", "1.0.0 - 2.0.0"⟩

/-- A manifest node with one dependency. -/
def exManifest : ManifestNode := ⟨"m1", "package.json", ⟨[exDepNode]⟩⟩

/-- The manifest edge wrapping `exManifest`. -/
def exManifestEdge : ManifestEdge := ⟨exManifest⟩

/-- A mocked single-manifest, single-page repository object. -/
def exRepository : RepoManifests := ⟨⟨⟨false, some "cur"⟩, [exManifestEdge]⟩⟩

/-- The mocked manifest-axis response wrapping `exRepository`. -/
def exManifestsResp : Option ManifestsResult := some ⟨some exRepository⟩

/-- An accumulator whose query-parameter cache already knows manifests
`m1` and `m2`. -/
def exRepoWithParams : OrgRepo :=
  ⟨"o", "r", [], [], [("m1", ⟨some "cur", 5⟩), ("m2", ⟨some "cur", 5⟩)], []⟩

/-- A manifest (id `m2`) the mocked response carries no edge for. -/
def exManifest2 : ManifestNode := ⟨"m2", "yarn.lock", ⟨[]⟩⟩

/-- `exRepoWithParams` after `get_deps` for `exManifest` against
`exManifestsResp`. -/
def exDeps1 : OrgRepo :=
  ⟨"o", "r", [], [], [("m1", ⟨some "cur", 5⟩), ("m2", ⟨some "cur", 5⟩)],
   [("m1", [exDepNode])]⟩

/-- `exRepo0` after one `get_dep_files` call against `exManifestsResp`. -/
def exDFRes1 : OrgRepo := ⟨"o", "r", [], [exManifestEdge], [("m1", ⟨some "cur", 5⟩)], []⟩

/-- `exRepo0` after two `get_dep_files` calls against `exManifestsResp`:
the manifest edge is appended twice, the query-parameter entry is
overwritten. -/
def exDFRes2 : OrgRepo :=
  ⟨"o", "r", [], [exManifestEdge, exManifestEdge], [("m1", ⟨some "cur", 5⟩)], []⟩

/-- A grouping input row with key `(o/a, main, s1, none)`. -/
def exRowA : Row := ⟨"o/a", "main", [⟨"package.json", "s1"⟩], 0⟩

/-- A grouping input row with key `(o/b, main, s2, none)`. -/
def exRowB : Row := ⟨"o/b", "main", [⟨"package.json", "s2"⟩], 1⟩

/-- A grouping input row with the same key as `exRowA` but not adjacent to
it in the input. -/
def exRowA2 : Row := ⟨"o/a", "main", [⟨"package.json", "s1"⟩], 2⟩

/-- The three groups `group_by_org_repo_ref_path` yields for
`[exRowA, exRowB, exRowA2]`: the two rows with equal keys end up in
separate groups because they are not adjacent. -/
def exGroups : List (GroupKey × List Row) :=
  [(⟨"o/a", "main", "s1", none⟩, [exRowA]),
   (⟨"o/b", "main", "s2", none⟩, [exRowB]),
   (⟨"o/a", "main", "s1", none⟩, [exRowA2])]

/-! ### Helper lemmas -/

theorem assocLookup_nil {α : Type} (k : String) : assocLookup ([] : List (String × α)) k = none := rfl

theorem assocLookup_assocSet_self {α : Type} (d : List (String × α)) (k : String) (v : α) :
    assocLookup (assocSet d k v) k = some v := by
  induction d with
  | nil => simp [assocSet, assocLookup]
  | cons kv rest ih =>
    by_cases h : kv.1 = k
    · simp [assocSet, h, assocLookup]
    · have hb : (kv.1 == k) = false := beq_eq_false_iff_ne.mpr h
      simpa [assocSet, hb, assocLookup] using ih

theorem assocLookup_assocSet_ne {α : Type} (d : List (String × α)) (k k' : String) (v : α)
    (h : k' ≠ k) : assocLookup (assocSet d k v) k' = assocLookup d k' := by
  have hb : (k == k') = false := beq_eq_false_iff_ne.mpr (fun e => h e.symm)
  induction d with
  | nil => simp [assocSet, assocLookup, hb]
  | cons kv rest ih =>
    by_cases hkv : kv.1 = k
    · have hkvb : (kv.1 == k) = true := beq_iff_eq.mpr hkv
      have hkv' : (kv.1 == k') = false := by
        subst hkv; exact hb
      simp [assocSet, hkvb, assocLookup, hb, hkv']
    · have hkvb : (kv.1 == k) = false := beq_eq_false_iff_ne.mpr hkv
      by_cases hkv' : kv.1 = k'
      · have hkv'b : (kv.1 == k') = true := beq_iff_eq.mpr hkv'
        simp [assocSet, hkvb, assocLookup, hkv'b]
      · have hkv'b : (kv.1 == k') = false := beq_eq_false_iff_ne.mpr hkv'
        simpa [assocSet, hkvb, assocLookup, hkv'b] using ih

theorem keys_assocSet_of_mem {α : Type} (d : List (String × α)) (k : String) (v : α)
    (h : k ∈ d.map (fun kv => kv.1)) :
    (assocSet d k v).map (fun kv => kv.1) = d.map (fun kv => kv.1) := by
  induction d with
  | nil => simp at h
  | cons kv rest ih =>
    by_cases hkv : kv.1 = k
    · have hkvb : (kv.1 == k) = true := beq_iff_eq.mpr hkv
      simp [assocSet, hkvb, hkv]
    · have hkvb : (kv.1 == k) = false := beq_eq_false_iff_ne.mpr hkv
      have hmem : k ∈ rest.map (fun kv => kv.1) := by
        simp only [List.map_cons, List.mem_cons] at h
        rcases h with h | h
        · exact absurd h.symm hkv
        · exact h
      simp [assocSet, hkvb, ih hmem]

theorem keys_assocSet_of_not_mem {α : Type} (d : List (String × α)) (k : String) (v : α)
    (h : k ∉ d.map (fun kv => kv.1)) :
    (assocSet d k v).map (fun kv => kv.1) = d.map (fun kv => kv.1) ++ [k] := by
  induction d with
  | nil => simp [assocSet]
  | cons kv rest ih =>
    simp only [List.map_cons, List.mem_cons] at h
    push_neg at h
    have hkvb : (kv.1 == k) = false := beq_eq_false_iff_ne.mpr (fun e => h.1 e.symm)
    simp [assocSet, hkvb, ih h.2]

theorem async_query_go_attempts_le (outcomes : Nat → QueryOutcome) :
    ∀ (fuel tryNum : Nat), (async_query_go outcomes tryNum fuel).attempts ≤ fuel := by
  intro fuel
  induction fuel with
  | zero => intro tryNum; simp [async_query_go]
  | succ n ih =>
    intro tryNum
    simp only [async_query_go]
    cases outcomes tryNum with
    | success v => simp
    | errorResponse ts =>
      by_cases h : isNotFoundErrors ts
      · simp [h]
      · simp [h]
        exact ih (tryNum + 1)
    | httpError s ra reset now =>
      by_cases h404 : (s == 404) = true
      · simp [h404]
      · by_cases hrl : (s == 403 || s == 503) = true
        · simp [h404, hrl]
          exact ih (tryNum + 1)
        · simp [h404, hrl]
          exact ih (tryNum + 1)

theorem async_query_go_all_retryable (outcomes : Nat → QueryOutcome)
    (h : ∀ n, isRetryable (outcomes n) = true) :
    ∀ (fuel tryNum : Nat),
      (async_query_go outcomes tryNum fuel).result = none ∧
      (async_query_go outcomes tryNum fuel).attempts = fuel := by
  intro fuel
  induction fuel with
  | zero => intro tryNum; simp [async_query_go]
  | succ n ih =>
    intro tryNum
    have hn := h tryNum
    simp only [async_query_go]
    cases o : outcomes tryNum with
    | success v => rw [o] at hn; simp [isRetryable] at hn
    | errorResponse ts =>
      rw [o] at hn
      simp only [isRetryable, Bool.not_eq_true'] at hn
      simp [hn]
      exact ih (tryNum + 1)
    | httpError s ra reset now =>
      rw [o] at hn
      simp only [isRetryable] at hn
      have hs : s = 403 ∨ s = 503 := by
        rcases Bool.or_eq_true_iff.mp hn with h' | h'
        · exact Or.inl (beq_iff_eq.mp h')
        · exact Or.inr (beq_iff_eq.mp h')
      have h404 : (s == 404) = false := by
        apply beq_eq_false_iff_ne.mpr
        rcases hs with h' | h' <;> simp [h']
      simp [h404, hn]
      exact ih (tryNum + 1)

theorem async_query_go_other_http (s : Int) (ra reset : Option Int) (now : Int)
    (h404 : s ≠ 404) (h403 : s ≠ 403) (h503 : s ≠ 503) :
    ∀ (fuel tryNum : Nat),
      async_query_go (fun _ => .httpError s ra reset now) tryNum fuel =
        { result := none, sleeps := [], attempts := fuel } := by
  have hb404 : (s == 404) = false := beq_eq_false_iff_ne.mpr h404
  have hb403 : (s == 403) = false := beq_eq_false_iff_ne.mpr h403
  have hb503 : (s == 503) = false := beq_eq_false_iff_ne.mpr h503
  intro fuel
  induction fuel with
  | zero => intro tryNum; simp [async_query_go]
  | succ n ih =>
    intro tryNum
    simp [async_query_go, hb404, hb403, hb503, ih (tryNum + 1)]

theorem assocSet_assocSet_self {α : Type} (d : List (String × α)) (k : String) (v w : α) :
    assocSet (assocSet d k v) k w = assocSet d k w := by
  induction d with
  | nil => simp [assocSet]
  | cons kv rest ih =>
    by_cases h : kv.1 = k
    · have hb : (kv.1 == k) = true := beq_iff_eq.mpr h
      simp [assocSet, hb]
    · have hb : (kv.1 == k) = false := beq_eq_false_iff_ne.mpr h
      simp [assocSet, hb, ih]

theorem get_deps_foldl_params (dep_file : ManifestNode) (edges : List ManifestEdge) :
    ∀ s : OrgRepo,
      (edges.foldl (get_deps_step dep_file) s).dep_file_query_params =
        s.dep_file_query_params := by
  induction edges with
  | nil => intro s; rfl
  | cons e rest ih =>
    intro s
    by_cases h : (e.node.id == dep_file.id) = true
    · simpa [get_deps_step, h] using ih _
    · simp only [Bool.not_eq_true] at h
      simpa [get_deps_step, h] using ih _

theorem get_deps_foldl_deps (dep_file : ManifestNode) (edges : List ManifestEdge) :
    ∀ s : OrgRepo,
      (edges.foldl (get_deps_step dep_file) s).dep_file_deps =
        match lastMatchingEdge dep_file edges with
        | none => s.dep_file_deps
        | some e => assocSet s.dep_file_deps dep_file.id e.node.dependencies.nodes := by
  induction edges with
  | nil => intro s; rfl
  | cons e rest ih =>
    intro s
    rw [List.foldl_cons]
    by_cases h : (e.node.id == dep_file.id) = true
    · have hstep : get_deps_step dep_file s e =
          { s with dep_file_deps :=
              assocSet s.dep_file_deps dep_file.id e.node.dependencies.nodes } := by
        simp [get_deps_step, h]
      rw [hstep, ih]
      simp only [lastMatchingEdge, List.filter_cons, h, if_true]
      cases hf : List.filter (fun x => x.node.id == dep_file.id) rest with
      | nil => simp
      | cons y ys =>
        simp only [List.getLast?_cons_cons]
        cases hl : (y :: ys).getLast? with
        | none => simp at hl
        | some e' => simp [assocSet_assocSet_self]
    · simp only [Bool.not_eq_true] at h
      have hstep : get_deps_step dep_file s e = s := by simp [get_deps_step, h]
      rw [hstep, ih]
      simp only [lastMatchingEdge, List.filter_cons, h, Bool.false_eq_true, if_false]

theorem get_deps_foldl_other_fields (dep_file : ManifestNode) (edges : List ManifestEdge) :
    ∀ s : OrgRepo,
      (edges.foldl (get_deps_step dep_file) s).org = s.org ∧
      (edges.foldl (get_deps_step dep_file) s).repo = s.repo ∧
      (edges.foldl (get_deps_step dep_file) s).languages = s.languages ∧
      (edges.foldl (get_deps_step dep_file) s).dep_files = s.dep_files := by
  induction edges with
  | nil => intro s; exact ⟨rfl, rfl, rfl, rfl⟩
  | cons e rest ih =>
    intro s
    by_cases h : (e.node.id == dep_file.id) = true
    · simpa [get_deps_step, h] using ih _
    · simp only [Bool.not_eq_true] at h
      simpa [get_deps_step, h] using ih _

theorem dictKeys_assocSet_of_mem (d : JObj) (k : String) (v : Json)
    (h : k ∈ dictKeys d) : dictKeys (assocSet d k v) = dictKeys d :=
  keys_assocSet_of_mem d k v h

theorem dictKeys_assocSet_of_not_mem (d : JObj) (k : String) (v : Json)
    (h : k ∉ dictKeys d) : dictKeys (assocSet d k v) = dictKeys d ++ [k] :=
  keys_assocSet_of_not_mem d k v h

theorem jsonEqStr_advisory_not_summary (j : Json)
    (h : jsonEqStr j "auditAdvisory" = true) : jsonEqStr j "auditSummary" = false := by
  cases j <;> simp [jsonEqStr] at h ⊢
  subst h
  decide

theorem mem_dictKeys_of_assocLookup {α : Type} (d : List (String × α)) (k : String) (v : α)
    (h : assocLookup d k = some v) : k ∈ d.map (fun kv => kv.1) := by
  induction d with
  | nil => simp [assocLookup] at h
  | cons kv rest ih =>
    by_cases hk : (kv.1 == k) = true
    · simp [beq_iff_eq.mp hk]
    · simp only [assocLookup, List.find?_cons, hk] at h
      simp only [List.map_cons, List.mem_cons]
      exact Or.inr (ih h)

theorem dictKeys_five_sets_adv (d : JObj) (v1 v2 v3 v4 v5 : Json)
    (h : dictKeys d = ["advisories"]) :
    dictKeys (assocSet (assocSet (assocSet (assocSet (assocSet d
        "dependencies_count" v1) "dev_dependencies_count" v2)
        "optional_dependencies_count" v3) "total_dependencies_count" v4)
        "vulnerabilities" v5) =
      ["advisories", "dependencies_count", "dev_dependencies_count",
       "optional_dependencies_count", "total_dependencies_count", "vulnerabilities"] := by
  have h1 : dictKeys (assocSet d "dependencies_count" v1) =
      ["advisories", "dependencies_count"] := by
    rw [dictKeys_assocSet_of_not_mem _ _ _ (by rw [h]; decide), h]
    rfl
  have h2 : dictKeys (assocSet (assocSet d "dependencies_count" v1)
      "dev_dependencies_count" v2) =
      ["advisories", "dependencies_count", "dev_dependencies_count"] := by
    rw [dictKeys_assocSet_of_not_mem _ _ _ (by rw [h1]; decide), h1]
    rfl
  have h3 : dictKeys (assocSet (assocSet (assocSet d "dependencies_count" v1)
      "dev_dependencies_count" v2) "optional_dependencies_count" v3) =
      ["advisories", "dependencies_count", "dev_dependencies_count",
       "optional_dependencies_count"] := by
    rw [dictKeys_assocSet_of_not_mem _ _ _ (by rw [h2]; decide), h2]
    rfl
  have h4 : dictKeys (assocSet (assocSet (assocSet (assocSet d "dependencies_count" v1)
      "dev_dependencies_count" v2) "optional_dependencies_count" v3)
      "total_dependencies_count" v4) =
      ["advisories", "dependencies_count", "dev_dependencies_count",
       "optional_dependencies_count", "total_dependencies_count"] := by
    rw [dictKeys_assocSet_of_not_mem _ _ _ (by rw [h3]; decide), h3]
    rfl
  rw [dictKeys_assocSet_of_not_mem _ _ _ (by rw [h4]; decide), h4]
  rfl

theorem dictKeys_five_sets_full (d : JObj) (v1 v2 v3 v4 v5 : Json)
    (h : dictKeys d = auditSummaryKeys) :
    dictKeys (assocSet (assocSet (assocSet (assocSet (assocSet d
        "dependencies_count" v1) "dev_dependencies_count" v2)
        "optional_dependencies_count" v3) "total_dependencies_count" v4)
        "vulnerabilities" v5) = auditSummaryKeys := by
  have h1 : dictKeys (assocSet d "dependencies_count" v1) = auditSummaryKeys := by
    rw [dictKeys_assocSet_of_mem _ _ _ (by rw [h]; decide), h]
  have h2 : dictKeys (assocSet (assocSet d "dependencies_count" v1)
      "dev_dependencies_count" v2) = auditSummaryKeys := by
    rw [dictKeys_assocSet_of_mem _ _ _ (by rw [h1]; decide), h1]
  have h3 : dictKeys (assocSet (assocSet (assocSet d "dependencies_count" v1)
      "dev_dependencies_count" v2) "optional_dependencies_count" v3) = auditSummaryKeys := by
    rw [dictKeys_assocSet_of_mem _ _ _ (by rw [h2]; decide), h2]
  have h4 : dictKeys (assocSet (assocSet (assocSet (assocSet d "dependencies_count" v1)
      "dev_dependencies_count" v2) "optional_dependencies_count" v3)
      "total_dependencies_count" v4) = auditSummaryKeys := by
    rw [dictKeys_assocSet_of_mem _ _ _ (by rw [h3]; decide), h3]
  rw [dictKeys_assocSet_of_mem _ _ _ (by rw [h4]; decide), h4]

theorem yarn_audit_step_props (u line u' : JObj)
    (hstep : yarn_audit_step u line = some u') :
    ((dictKeys u = ["advisories"] ∨ dictKeys u = auditSummaryKeys) →
      (dictKeys u' = ["advisories"] ∨ dictKeys u' = auditSummaryKeys)) ∧
    (dictKeys u = auditSummaryKeys → dictKeys u' = auditSummaryKeys) ∧
    ((dictKeys u = ["advisories"] ∨ dictKeys u = auditSummaryKeys) →
      isSummaryLine line = true → dictKeys u' = auditSummaryKeys) ∧
    (vulnCountConsistent u → vulnCountConsistent u') ∧
    ((assocLookup u "vulnerabilities_count").isSome →
      (assocLookup u' "vulnerabilities_count").isSome) ∧
    (isSummaryLine line = true → (assocLookup u' "vulnerabilities_count").isSome) := by
  simp only [yarn_audit_step] at hstep
  by_cases hA : jsonEqStr (dictGetD line "type" Json.null) "auditAdvisory" = true
  · rw [if_pos hA] at hstep
    have hns : isSummaryLine line = false := by
      rw [isSummaryLine]
      exact jsonEqStr_advisory_not_summary _ hA
    cases hadv : assocLookup u "advisories" with
    | none => rw [hadv] at hstep; exact absurd hstep (by simp)
    | some adv =>
      rw [hadv] at hstep
      cases adv with
      | arr advs =>
        have hu' : u' = assocSet u "advisories"
            (.arr (advs ++ [dictGetD line "data" (Json.obj [])])) :=
          (Option.some_inj.mp hstep).symm
        have hkeys : dictKeys u' = dictKeys u := by
          rw [hu']
          exact dictKeys_assocSet_of_mem _ _ _ (mem_dictKeys_of_assocLookup _ _ _ hadv)
        have hlc : assocLookup u' "vulnerabilities_count" =
            assocLookup u "vulnerabilities_count" := by
          rw [hu']
          exact assocLookup_assocSet_ne _ _ _ _ (by decide)
        have hlv : assocLookup u' "vulnerabilities" = assocLookup u "vulnerabilities" := by
          rw [hu']
          exact assocLookup_assocSet_ne _ _ _ _ (by decide)
        refine ⟨?_, ?_, ?_, ?_, ?_, ?_⟩
        · intro h; rw [hkeys]; exact h
        · intro h; rw [hkeys]; exact h
        · intro _ hs; rw [hns] at hs; exact absurd hs (by simp)
        · intro h; rw [vulnCountConsistent, hlc, hlv]; exact h
        · intro h; rw [hlc]; exact h
        · intro hs; rw [hns] at hs; exact absurd hs (by simp)
      | null => exact absurd hstep (by simp)
      | bool b => exact absurd hstep (by simp)
      | num n => exact absurd hstep (by simp)
      | str s => exact absurd hstep (by simp)
      | obj kvs => exact absurd hstep (by simp)
  · rw [if_neg hA] at hstep
    by_cases hS : jsonEqStr (dictGetD line "type" Json.null) "auditSummary" = true
    · rw [if_pos hS] at hstep
      cases hv : assocLookup (dictUpdate u (auditSummaryFields
          (dictGetD line "data" (Json.obj [])))) "vulnerabilities" with
      | none => rw [hv] at hstep; exact absurd hstep (by simp)
      | some v =>
        rw [hv] at hstep
        obtain ⟨total, htot, hu'⟩ := Option.map_eq_some'.mp hstep
        have hu'eq : u' = assocSet (dictUpdate u (auditSummaryFields
            (dictGetD line "data" (Json.obj [])))) "vulnerabilities_count"
            (Json.num total) := hu'.symm
        have hDeq : dictUpdate u (auditSummaryFields (dictGetD line "data" (Json.obj []))) =
            assocSet (assocSet (assocSet (assocSet (assocSet u
              "dependencies_count"
                (get_in (dictGetD line "data" (Json.obj [])) ["dependencies"] Json.null))
              "dev_dependencies_count"
                (get_in (dictGetD line "data" (Json.obj [])) ["devDependencies"] Json.null))
              "optional_dependencies_count"
                (get_in (dictGetD line "data" (Json.obj [])) ["optionalDependencies"] Json.null))
              "total_dependencies_count"
                (get_in (dictGetD line "data" (Json.obj [])) ["totalDependencies"] Json.null))
              "vulnerabilities"
                (get_in (dictGetD line "data" (Json.obj [])) ["vulnerabilities"] Json.null) := rfl
        have hlc : assocLookup u' "vulnerabilities_count" = some (Json.num total) := by
          rw [hu'eq]; exact assocLookup_assocSet_self _ _ _
        have hlv : assocLookup u' "vulnerabilities" = some v := by
          rw [hu'eq, assocLookup_assocSet_ne _ _ _ _ (by decide)]
          exact hv
        have hcc : vulnCountConsistent u' := by
          rw [vulnCountConsistent, hlc, hlv]
          simp [htot]
        have hkeys : (dictKeys u = ["advisories"] ∨ dictKeys u = auditSummaryKeys) →
            dictKeys u' = auditSummaryKeys := by
          intro h
          rcases h with h | h
          · have h6 := dictKeys_five_sets_adv u
              (get_in (dictGetD line "data" (Json.obj [])) ["dependencies"] Json.null)
              (get_in (dictGetD line "data" (Json.obj [])) ["devDependencies"] Json.null)
              (get_in (dictGetD line "data" (Json.obj [])) ["optionalDependencies"] Json.null)
              (get_in (dictGetD line "data" (Json.obj [])) ["totalDependencies"] Json.null)
              (get_in (dictGetD line "data" (Json.obj [])) ["vulnerabilities"] Json.null) h
            rw [← hDeq] at h6
            rw [hu'eq, dictKeys_assocSet_of_not_mem _ _ _ (by rw [h6]; decide), h6]
            rfl
          · have h7 := dictKeys_five_sets_full u
              (get_in (dictGetD line "data" (Json.obj [])) ["dependencies"] Json.null)
              (get_in (dictGetD line "data" (Json.obj [])) ["devDependencies"] Json.null)
              (get_in (dictGetD line "data" (Json.obj [])) ["optionalDependencies"] Json.null)
              (get_in (dictGetD line "data" (Json.obj [])) ["totalDependencies"] Json.null)
              (get_in (dictGetD line "data" (Json.obj [])) ["vulnerabilities"] Json.null) h
            rw [← hDeq] at h7
            rw [hu'eq, dictKeys_assocSet_of_mem _ _ _ (by rw [h7]; decide), h7]
        refine ⟨?_, ?_, ?_, ?_, ?_, ?_⟩
        · intro h; exact Or.inr (hkeys h)
        · intro h; exact hkeys (Or.inr h)
        · intro h _; exact hkeys h
        · intro _; exact hcc
        · intro _; rw [hlc]; rfl
        · intro _; rw [hlc]; rfl
    · rw [if_neg hS] at hstep
      have hu' : u' = u := (Option.some_inj.mp hstep).symm
      subst hu'
      have hns : isSummaryLine line = false := by
        rw [isSummaryLine]
        exact Bool.not_eq_true _ ▸ (by simpa using hS)
      refine ⟨fun h => h, fun h => h, ?_, fun h => h, fun h => h, ?_⟩
      · intro _ hs; rw [hns] at hs; exact absurd hs (by simp)
      · intro hs; rw [hns] at hs; exact absurd hs (by simp)

theorem yarn_audit_foldl_props :
    ∀ (lines : List JObj) (u0 u : JObj),
      List.foldlM yarn_audit_step u0 lines = some u →
      (((dictKeys u0 = ["advisories"] ∨ dictKeys u0 = auditSummaryKeys) →
        ((dictKeys u = ["advisories"] ∨ dictKeys u = auditSummaryKeys) ∧
         (dictKeys u0 = auditSummaryKeys → dictKeys u = auditSummaryKeys) ∧
         ((∃ l ∈ lines, isSummaryLine l = true) → dictKeys u = auditSummaryKeys))) ∧
       (vulnCountConsistent u0 → vulnCountConsistent u) ∧
       ((assocLookup u0 "vulnerabilities_count").isSome →
         (assocLookup u "vulnerabilities_count").isSome) ∧
       ((∃ l ∈ lines, isSummaryLine l = true) →
         (assocLookup u "vulnerabilities_count").isSome)) := by
  intro lines
  induction lines with
  | nil =>
    intro u0 u h
    have hu : u0 = u := by simpa [List.foldlM] using h
    subst hu
    exact ⟨fun h0 => ⟨h0, fun hf => hf, fun hex => absurd hex (by simp)⟩,
           fun h => h, fun h => h, fun hex => absurd hex (by simp)⟩
  | cons line rest ih =>
    intro u0 u h
    rw [List.foldlM_cons] at h
    cases hstep : yarn_audit_step u0 line with
    | none => rw [hstep] at h; exact absurd h (by simp)
    | some u1 =>
      rw [hstep] at h
      simp only [Option.bind_eq_bind, Option.some_bind] at h
      obtain ⟨Pk1, Pk2, Pk3, Pc, Ps1, Ps2⟩ := yarn_audit_step_props u0 line u1 hstep
      obtain ⟨IKg, IC, IS1, IS2⟩ := ih u1 u h
      refine ⟨?_, fun hc => IC (Pc hc), fun hs => IS1 (Ps1 hs), ?_⟩
      · intro h0
        have h1 := Pk1 h0
        obtain ⟨IK1, IK2, IK3⟩ := IKg h1
        refine ⟨IK1, fun hfull => IK2 (Pk2 hfull), ?_⟩
        intro hex
        rcases hex with ⟨l, hl, hsl⟩
        rcases List.mem_cons.mp hl with rfl | hl'
        · exact IK2 (Pk3 h0 hsl)
        · exact IK3 ⟨l, hl', hsl⟩
      · intro hex
        rcases hex with ⟨l, hl, hsl⟩
        rcases List.mem_cons.mp hl with rfl | hl'
        · exact IS1 (Ps2 hsl)
        · exact IS2 ⟨l, hl', hsl⟩

/-- C10: `group_by_org_repo_ref_path` groups only consecutive input rows:
the yielded groups concatenate back to the input in order (so the internal
`sorted()` calls reorder nothing and keys appear in first-occurrence input
order), every group is a nonempty run of rows sharing the group's key, and
adjacent groups carry different keys (so equal keys of non-adjacent rows
are yielded as separate groups). -/
theorem c10_group_by_consecutive_runs :
    ∀ (rows : List Row) (gs : List (GroupKey × List Row)),
      group_by_org_repo_ref_path rows = some gs →
      ((gs.map (fun g => g.2)).flatten = rows ∧
       (∀ g ∈ gs, g.2 ≠ [] ∧ ∀ x ∈ g.2, rowKey x = some g.1) ∧
       List.Chain' (fun g1 g2 => g1.1 ≠ g2.1) gs) := by
  intro rows
  induction rows using group_by_org_repo_ref_path.induct with
  | case1 =>
    intro gs h
    simp [group_by_org_repo_ref_path] at h
    simp [h, List.Chain']
  | case2 r rest hk =>
    intro gs h
    rw [group_by_org_repo_ref_path, hk] at h
    exact absurd h (by simp)
  | case3 r rest k hk e ihn =>
    intro gs h
    rw [group_by_org_repo_ref_path, hk] at h
    simp [ihn] at h
  | case4 r rest k hk e f hrec ih =>
    intro gs h
    have he_def : e = List.dropWhile (fun x => decide (rowKey x = some k)) rest := rfl
    rw [group_by_org_repo_ref_path, hk] at h
    simp only [hrec] at h
    have hgs : gs = (k, r :: rest.takeWhile (fun x => decide (rowKey x = some k))) :: f :=
      (Option.some_inj.mp h).symm
    obtain ⟨IH1, IH2, IH3⟩ := ih f hrec
    subst hgs
    refine ⟨?_, ?_, ?_⟩
    · simp only [List.map_cons, List.flatten_cons, IH1, List.cons_append]
      exact congrArg (fun l => r :: l) (List.takeWhile_append_dropWhile _ _)
    · intro g hg
      rcases List.mem_cons.mp hg with rfl | hg'
      · refine ⟨by simp, fun x hx => ?_⟩
        show rowKey x = some k
        rcases List.mem_cons.mp hx with rfl | hx'
        · exact hk
        · exact of_decide_eq_true
            (@List.mem_takeWhile_imp Row (fun x => decide (rowKey x = some k)) rest x hx')
      · exact IH2 g hg'
    · rw [List.chain'_cons']
      refine ⟨?_, IH3⟩
      intro y hy
      cases hf : f with
      | nil => rw [hf] at hy; simp at hy
      | cons y0 t =>
        rw [hf] at hy
        simp only [List.head?_cons, Option.mem_def, Option.some_inj] at hy
        subst hy
        obtain ⟨hne, hmem⟩ := IH2 y0 (by rw [hf]; exact List.mem_cons_self _ _)
        cases hz : y0.2 with
        | nil => exact absurd hz hne
        | cons z zs =>
          have hzk : rowKey z = some y0.1 := hmem z (by rw [hz]; exact List.mem_cons_self _ _)
          have he : e.head? = some z := by
            rw [hf] at IH1
            simp only [List.map_cons, List.flatten_cons] at IH1
            rw [hz] at IH1
            rw [← IH1]
            simp
          have hzf : decide (rowKey z = some k) = false := by
            have hnp := List.head?_dropWhile_not (fun x => decide (rowKey x = some k)) rest
            rw [← he_def, he] at hnp
            exact hnp
          have hzne : rowKey z ≠ some k := of_decide_eq_false hzf
          show (k, r :: rest.takeWhile (fun x => decide (rowKey x = some k))).1 ≠ y0.1
          intro hkeq
          apply hzne
          rw [hzk]
          exact congrArg some hkeq.symm

/-- C3: on a RateLimited failure (HTTP 403/503) at attempt `tryNum`,
`async_query` sleeps exactly a positive `Retry-After` duration when one is
present (in particular exactly 5 for `Retry-After: 5` on the first
attempt), else until a future `X-RateLimit-Reset` timestamp, else the
exponential backoff `2 ^ tryNum + 60` (base delay fixed at 60) when the
reset is past-due or absent. -/
theorem c3_rate_limited_backoff :
    (∀ (tryNum : Nat) (ra : Int) (resetAt : Option Int) (now : Int), 0 < ra →
      rateLimitedSleep tryNum (some ra) resetAt now = ra) ∧
    (async_query (fun n => if n == 0 then QueryOutcome.httpError 403 (some 5) none 0
        else QueryOutcome.success 1)).sleeps = [5] ∧
    (∀ (tryNum : Nat) (resetTime now : Int), 0 < resetTime - now →
      rateLimitedSleep tryNum none (some resetTime) now = resetTime - now) ∧
    (∀ (tryNum : Nat) (resetTime now : Int), resetTime - now ≤ 0 →
      rateLimitedSleep tryNum none (some resetTime) now = 2 ^ tryNum + 60) ∧
    (∀ (tryNum : Nat) (now : Int),
      rateLimitedSleep tryNum none none now = 2 ^ tryNum + 60) := by
  refine ⟨?_, by decide, ?_, ?_, ?_⟩
  · intro tryNum ra resetAt now h
    simp [rateLimitedSleep, h]
  · intro tryNum resetTime now h
    simp [rateLimitedSleep, h]
  · intro tryNum resetTime now h
    simp [rateLimitedSleep, not_lt.mpr h]
  · intro tryNum now
    simp [rateLimitedSleep]

/-- Witness for C3 at concrete inputs: `Retry-After: 5` with no prior
attempts sleeps exactly 5, a future reset 60 units away is waited out, and
a past-due or absent reset falls back to `2 ^ tryNum + 60`. -/
theorem c3_rate_limited_backoff_witness :
    rateLimitedSleep 0 (some 5) none 0 = 5 ∧
    rateLimitedSleep 2 none (some 100) 40 = 60 ∧
    rateLimitedSleep 3 none (some 10) 40 = 2 ^ 3 + 60 ∧
    rateLimitedSleep 1 none none 7 = 2 ^ 1 + 60 :=
  ⟨c3_rate_limited_backoff.1 0 5 none 0 (by decide),
   c3_rate_limited_backoff.2.2.1 2 100 40 (by decide),
   c3_rate_limited_backoff.2.2.2.1 3 10 40 (by decide),
   c3_rate_limited_backoff.2.2.2.2 1 7⟩

/-- C6 counterexample: a repeated HTTP error with status 500 — not 404,
403 or 503 — is retried 15 times by `async_query` (the attempt count is
the full cap, not 1) and the loop then returns `None`, so the failure is
neither terminal nor surfaced as the claim states. -/
theorem c6_counterexample_http500_retried :
    (async_query (fun _ => QueryOutcome.httpError 500 none none 0)).attempts = 15 ∧
    (async_query (fun _ => QueryOutcome.httpError 500 none none 0)).result = none := by
  decide

/-- C6 (amended): an HTTP error whose status is not 404, 403 or 503 is NOT
treated as terminal: `async_query` retries it immediately — performing no
sleep at all — until the 15-attempt cap is exhausted, and then returns
`None` rather than surfacing the failure. -/
theorem c6_other_http_retried_without_sleep :
    ∀ (status : Int) (retryAfter resetAt : Option Int) (now : Int),
      status ≠ 404 → status ≠ 403 → status ≠ 503 →
      async_query (fun _ => QueryOutcome.httpError status retryAfter resetAt now) =
        { result := none, sleeps := [], attempts := 15 } := by
  intro status retryAfter resetAt now h404 h403 h503
  exact async_query_go_other_http status retryAfter resetAt now h404 h403 h503 15 0

/-- Witness for C6 (amended) at status 500 with a `Retry-After` header that
is consequently ignored. -/
theorem c6_other_http_witness :
    async_query (fun _ => QueryOutcome.httpError 500 (some 7) none 0) =
      { result := none, sleeps := [], attempts := 15 } :=
  c6_other_http_retried_without_sleep 500 (some 7) none 0
    (by decide) (by decide) (by decide)

/-- C7 counterexample: when every attempt fails with a retryable
`ErrorResponse`, exhausting the 15-attempt cap makes `async_query` return
`None` — a value carrying no failure information — not the last-seen
failure. -/
theorem c7_counterexample_returns_none :
    (async_query (fun _ => QueryOutcome.errorResponse [some "timedout"])).result = none ∧
    (async_query (fun _ => QueryOutcome.errorResponse [some "timedout"])).attempts = 15 := by
  decide

/-- C7 (amended): `async_query` makes at most 15 attempts for one query,
and when every attempt fails with a retryable failure the cap is exhausted
and the call returns `None` (no failure information). -/
theorem c7_attempt_cap :
    (∀ outcomes : Nat → QueryOutcome, (async_query outcomes).attempts ≤ 15) ∧
    (∀ outcomes : Nat → QueryOutcome, (∀ n, isRetryable (outcomes n) = true) →
      (async_query outcomes).result = none ∧ (async_query outcomes).attempts = 15) := by
  constructor
  · intro outcomes
    exact async_query_go_attempts_le outcomes 15 0
  · intro outcomes h
    exact async_query_go_all_retryable outcomes h 15 0

/-- Witness for C7 at a constantly rate-limited (HTTP 503) executor. -/
theorem c7_attempt_cap_witness :
    (async_query (fun _ => QueryOutcome.httpError 503 none none 0)).attempts ≤ 15 ∧
    (async_query (fun _ => QueryOutcome.httpError 503 none none 0)).result = none ∧
    (async_query (fun _ => QueryOutcome.httpError 503 none none 0)).attempts = 15 := by
  refine ⟨c7_attempt_cap.1 _, ?_, ?_⟩
  · exact (c7_attempt_cap.2 (fun _ => QueryOutcome.httpError 503 none none 0)
      (fun _ => rfl)).1
  · exact (c7_attempt_cap.2 (fun _ => QueryOutcome.httpError 503 none none 0)
      (fun _ => rfl)).2

/-- C8 counterexample: for the manifest-axis builder the claim fails in
both directions — the cursor-less query never requests the repository
metadata scalar `createdAt`, and the cursor-carrying query still requests
the one-time `totalCount` field. -/
theorem c8_counterexample_manifests_builder :
    "createdAt" ∉ repositoryChildNames (repo_manifests_query "o" "r" 10 none) ∧
    "totalCount" ∈ manifestsChildNames (repo_manifests_query "o" "r" 10 (some "cur")) := by
  decide

/-- C8 (amended): `repo_langs_query` without a cursor additionally requests
the one-time repository scalars (`createdAt`, `updatedAt`, `description`,
`isArchived`, `isPrivate`, `isFork`) and the connection totals, all
omitted when a cursor is given; `repo_manifests_query` requests the same
selection set in both cases — `totalCount` included, repository metadata
scalars never — differing only in the `after` argument. -/
theorem c8_one_time_fields :
    ∀ (org_name repo_name : String) (first : Nat) (cursor : String),
      repositoryChildNames (repo_langs_query org_name repo_name first none) =
        ["createdAt", "updatedAt", "description", "isArchived", "isPrivate", "isFork",
         "languages"] ∧
      repositoryChildNames (repo_langs_query org_name repo_name first (some cursor)) =
        ["languages"] ∧
      languagesChildNames (repo_langs_query org_name repo_name first none) =
        ["pageInfo", "totalCount", "totalSize", "edges"] ∧
      languagesChildNames (repo_langs_query org_name repo_name first (some cursor)) =
        ["pageInfo", "edges"] ∧
      repositoryChildNames (repo_manifests_query org_name repo_name first none) =
        ["dependencyGraphManifests"] ∧
      repositoryChildNames (repo_manifests_query org_name repo_name first (some cursor)) =
        ["dependencyGraphManifests"] ∧
      manifestsChildNames (repo_manifests_query org_name repo_name first (some cursor)) =
        ["pageInfo", "totalCount", "edges"] ∧
      manifestsChildNames (repo_manifests_query org_name repo_name first none) =
        manifestsChildNames (repo_manifests_query org_name repo_name first (some cursor)) ∧
      manifestsEdgesSel (repo_manifests_query org_name repo_name first none) =
        manifestsEdgesSel (repo_manifests_query org_name repo_name first (some cursor)) := by
  intro org_name repo_name first cursor
  exact ⟨rfl, rfl, rfl, rfl, rfl, rfl, rfl, rfl, rfl⟩

theorem npm_audit_lookup_count (a b c d v adv e : Json) (t : Int) :
    assocLookup [("dependencies_count", a), ("dev_dependencies_count", b),
      ("optional_dependencies_count", c), ("total_dependencies_count", d),
      ("vulnerabilities", v), ("advisories", adv), ("error", e),
      ("vulnerabilities_count", Json.num t)] "vulnerabilities_count" =
      some (Json.num t) := rfl

theorem npm_audit_lookup_vulns (a b c d v adv e : Json) (t : Int) :
    assocLookup [("dependencies_count", a), ("dev_dependencies_count", b),
      ("optional_dependencies_count", c), ("total_dependencies_count", d),
      ("vulnerabilities", v), ("advisories", adv), ("error", e),
      ("vulnerabilities_count", Json.num t)] "vulnerabilities" = some v := rfl

/-- C1 counterexample: `parse_npm_audit` on a valid audit document returns
a record with no `root`, `dependencies` or `problems_count` field, so no
single normalizer result carries all the fields the claim lists. -/
theorem c1_counterexample_audit_lacks_root :
    parse_npm_audit exAuditDoc = some exAuditRes ∧
    "root" ∉ dictKeys exAuditRes ∧
    "dependencies" ∉ dictKeys exAuditRes ∧
    "problems_count" ∉ dictKeys exAuditRes :=
  ⟨rfl, by decide, by decide, by decide⟩

/-- C1 (amended): each normalizer returns exactly the fields of its own
variant — `parse_npm_list` the seven list fields (`problems` included),
`parse_yarn_list` the five list fields with `root` and
`direct_dependencies_count` always null, `parse_npm_audit` the eight audit
fields, and `parse_yarn_audit` `advisories` alone until an `auditSummary`
record adds the count fields, `vulnerabilities` and
`vulnerabilities_count`.  No single parser returns all fields of the
spec's combined contract. -/
theorem c1_normalizer_field_sets :
    (∀ (parsed_stdout : Json) (u : JObj), parse_npm_list parsed_stdout = some u →
      dictKeys u = ["problems", "dependencies", "dependencies_count", "problems_count",
                    "root", "direct_dependencies_count", "graph_stats"]) ∧
    (∀ (parsed_stdout : List JObj) (u : JObj), parse_yarn_list parsed_stdout = some u →
      dictKeys u = ["dependencies", "dependencies_count", "root",
                    "direct_dependencies_count", "graph_stats"] ∧
      assocLookup u "root" = some Json.null ∧
      assocLookup u "direct_dependencies_count" = some Json.null) ∧
    (∀ (parsed_stdout : Json) (u : JObj), parse_npm_audit parsed_stdout = some u →
      dictKeys u = ["dependencies_count", "dev_dependencies_count",
                    "optional_dependencies_count", "total_dependencies_count",
                    "vulnerabilities", "advisories", "error", "vulnerabilities_count"]) ∧
    (∀ (parsed_stdout : List JObj) (u : JObj), parse_yarn_audit parsed_stdout = some u →
      (dictKeys u = ["advisories"] ∨ dictKeys u = auditSummaryKeys) ∧
      ((∃ l ∈ parsed_stdout, isSummaryLine l = true) → dictKeys u = auditSummaryKeys)) := by
  refine ⟨?_, ?_, ?_, ?_⟩
  · intro parsed_stdout u h
    simp only [parse_npm_list] at h
    cases hj : jsonLen (get_in parsed_stdout ["problems"] (Json.arr [])) with
    | none => rw [hj] at h; exact absurd h (by simp)
    | some problemsCount =>
      rw [hj] at h
      have hu := Option.some_inj.mp h
      subst hu
      rfl
  · intro parsed_stdout u h
    simp only [parse_yarn_list] at h
    obtain ⟨deps, hd, hu⟩ := Option.map_eq_some'.mp h
    subst hu
    exact ⟨rfl, rfl, rfl⟩
  · intro parsed_stdout u h
    simp only [parse_npm_audit] at h
    obtain ⟨total, htot, hu⟩ := Option.map_eq_some'.mp h
    subst hu
    rfl
  · intro parsed_stdout u h
    simp only [parse_yarn_audit] at h
    have hp := yarn_audit_foldl_props parsed_stdout [("advisories", Json.arr [])] u h
    obtain ⟨K1, _, K3⟩ := hp.1 (Or.inl rfl)
    exact ⟨K1, K3⟩

/-- Witness for C1 (amended) at concrete parser runs of all four variants. -/
theorem c1_normalizer_field_sets_witness :
    dictKeys exNpmListRes = ["problems", "dependencies", "dependencies_count",
      "problems_count", "root", "direct_dependencies_count", "graph_stats"] ∧
    dictKeys exYarnListRes = ["dependencies", "dependencies_count", "root",
      "direct_dependencies_count", "graph_stats"] ∧
    dictKeys exAuditRes = ["dependencies_count", "dev_dependencies_count",
      "optional_dependencies_count", "total_dependencies_count", "vulnerabilities",
      "advisories", "error", "vulnerabilities_count"] ∧
    dictKeys exYarnAuditRes = auditSummaryKeys :=
  ⟨c1_normalizer_field_sets.1 (Json.obj []) exNpmListRes rfl,
   (c1_normalizer_field_sets.2.1 [] exYarnListRes rfl).1,
   c1_normalizer_field_sets.2.2.1 exAuditDoc exAuditRes rfl,
   (c1_normalizer_field_sets.2.2.2 [exYarnSummaryLine] exYarnAuditRes rfl).2
     ⟨exYarnSummaryLine, List.mem_singleton.mpr rfl, rfl⟩⟩

/-- C2: for every Shape A audit document accepted by `parse_npm_audit` and
every Shape B record sequence accepted by `parse_yarn_audit` that contains
an `auditSummary` record, the returned `vulnerabilities_count` equals the
sum of the values of the returned `vulnerabilities` severity-count map. -/
theorem c2_vulnerabilities_count_is_sum :
    (∀ (parsed_stdout : Json) (u : JObj), parse_npm_audit parsed_stdout = some u →
      assocLookup u "vulnerabilities_count" =
        ((assocLookup u "vulnerabilities").bind sumValues).map Json.num) ∧
    (∀ (parsed_stdout : List JObj) (u : JObj), parse_yarn_audit parsed_stdout = some u →
      (∃ l ∈ parsed_stdout, isSummaryLine l = true) →
      (assocLookup u "vulnerabilities_count").isSome ∧
      assocLookup u "vulnerabilities_count" =
        ((assocLookup u "vulnerabilities").bind sumValues).map Json.num) := by
  constructor
  · intro parsed_stdout u h
    simp only [parse_npm_audit] at h
    obtain ⟨total, htot, hu⟩ := Option.map_eq_some'.mp h
    subst hu
    rw [npm_audit_lookup_count, npm_audit_lookup_vulns]
    rw [Option.some_bind, htot]
    rfl
  · intro parsed_stdout u h hex
    simp only [parse_yarn_audit] at h
    have hp := yarn_audit_foldl_props parsed_stdout [("advisories", Json.arr [])] u h
    exact ⟨hp.2.2.2 hex, hp.2.1 rfl⟩

/-- Witness for C2 at a concrete yarn audit run with an `auditSummary`
record and a concrete npm audit run. -/
theorem c2_vulnerabilities_count_is_sum_witness :
    (assocLookup exYarnAuditRes "vulnerabilities_count").isSome ∧
    assocLookup exYarnAuditRes "vulnerabilities_count" =
      ((assocLookup exYarnAuditRes "vulnerabilities").bind sumValues).map Json.num ∧
    assocLookup exAuditRes "vulnerabilities_count" =
      ((assocLookup exAuditRes "vulnerabilities").bind sumValues).map Json.num := by
  obtain ⟨hs, heq⟩ := c2_vulnerabilities_count_is_sum.2 [exYarnSummaryLine] exYarnAuditRes
    rfl ⟨exYarnSummaryLine, List.mem_singleton.mpr rfl, rfl⟩
  exact ⟨hs, heq, c2_vulnerabilities_count_is_sum.1 exAuditDoc exAuditRes rfl⟩

/-- C4 counterexample: on truncated-JSON stdout the task record is emitted
unchanged — it does NOT receive `dependencies: []` and
`dependencies_count: 0` as the claim states; those keys are absent. -/
theorem c4_counterexample_no_empty_fields :
    process_npm_task_row "list_metadata" c4fields
      (some (.error "Unexpected end of JSON input")) = .ok c4fields ∧
    assocLookup c4fields "dependencies" = none ∧
    assocLookup c4fields "dependencies_count" = none :=
  ⟨rfl, rfl, rfl⟩

/-- C4 (amended): stdout that fails to parse — as one JSON document for
npm or as JSON lines for yarn — is logged and makes the parse-task step
return `None`; the task's already-extracted record is then emitted
unchanged (no `dependencies` fields are added), and the failure is never
pipeline-fatal. -/
theorem c4_malformed_stdout_not_fatal :
    (∀ (task_name : String) (e : String),
      parse_stdout_as_json (some (.error e)) = none ∧
      parse_npm_task task_name (some (.error e)) = .ok none ∧
      ∀ (taskFields : JObj),
        process_npm_task_row task_name taskFields (some (.error e)) = .ok taskFields) ∧
    (∀ (task_name : String) (lines : List (Except String Json)),
      lines.any exceptIsError = true →
      parse_stdout_as_jsonlines (some lines) = none ∧
      parse_yarn_task task_name (some lines) = .ok none ∧
      ∀ (taskFields : JObj),
        process_yarn_task_row task_name taskFields (some lines) = .ok taskFields) := by
  constructor
  · intro task_name e
    exact ⟨rfl, rfl, fun _ => rfl⟩
  · intro task_name lines hany
    refine ⟨?_, ?_, ?_⟩
    · simp [parse_stdout_as_jsonlines, hany]
    · simp [parse_yarn_task, parse_stdout_as_jsonlines, hany]
    · intro taskFields
      have h2 : parse_yarn_task task_name (some lines) = .ok none := by
        simp [parse_yarn_task, parse_stdout_as_jsonlines, hany]
      simp [process_yarn_task_row, h2, apply_task_updates, Except.map]

/-- Witness for C4 at a concrete malformed yarn JSONL stdout and a
concrete malformed npm stdout. -/
theorem c4_malformed_stdout_witness :
    parse_stdout_as_jsonlines (some [Except.error "bad line"]) = none ∧
    parse_yarn_task "audit" (some [Except.error "bad line"]) = .ok none ∧
    process_yarn_task_row "audit" c4fields (some [Except.error "bad line"]) = .ok c4fields ∧
    parse_npm_task "audit" (some (.error "truncated document")) = .ok none := by
  obtain ⟨h1, h2, h3⟩ :=
    c4_malformed_stdout_not_fatal.2 "audit" [Except.error "bad line"] rfl
  exact ⟨h1, h2, h3 c4fields, (c4_malformed_stdout_not_fatal.1 "audit" "truncated document").2.1⟩

theorem get_dep_files_foldl_dep_files (cursor : Option String) (n : Nat)
    (edges : List ManifestEdge) :
    ∀ s : OrgRepo,
      (edges.foldl (get_dep_files_step cursor n) s).dep_files = s.dep_files := by
  induction edges with
  | nil => intro s; rfl
  | cons e rest ih => intro s; simpa [get_dep_files_step] using ih _

/-- C5 counterexample: re-invoking `get_org_repo_langs` with the same
response `extend`s `repo.languages` again — the language edge is
duplicated, not overwritten. -/
theorem c5_counterexample_languages_duplicated :
    (get_org_repo_langs exLangsResp exRepo0).bind (get_org_repo_langs exLangsResp) =
      .ok exLangs2 ∧
    exLangs2.languages = [exLangEdge, exLangEdge] ∧
    ¬ exLangs2.languages.Nodup :=
  ⟨rfl, rfl, by decide⟩

/-- C5 (amended): only `get_deps` is idempotent — repeating it with the
same response and manifest leaves `repo.dep_file_deps` exactly as after a
single call (dict assignment overwrites by key).  `get_org_repo_langs` and
`get_dep_files` instead append: a second identical call extends
`repo.languages` / `repo.dep_files` with the same edges again, duplicating
entries (only the `dep_file_query_params` cache is overwritten by key). -/
theorem c5_get_deps_idempotent_fetches_append :
    (∀ (resp : Option ManifestsResult) (org_repo : OrgRepo) (dep_file : ManifestNode)
        (r1 r2 : OrgRepo),
      get_deps resp org_repo dep_file = .ok r1 →
      get_deps resp r1 dep_file = .ok r2 →
      r2.dep_file_deps = r1.dep_file_deps) ∧
    (∀ (resp : Option LangsResult) (org_repo r1 r2 : OrgRepo),
      get_org_repo_langs resp org_repo = .ok r1 →
      get_org_repo_langs resp r1 = .ok r2 →
      r2.languages = org_repo.languages ++ langsRespEdges resp ++ langsRespEdges resp) ∧
    (∀ (resp : Option ManifestsResult) (org_repo : OrgRepo) (n : Nat) (r1 r2 : OrgRepo),
      get_dep_files resp org_repo n = .ok r1 →
      get_dep_files resp r1 n = .ok r2 →
      r2.dep_files = org_repo.dep_files ++ manifestsRespEdges resp ++
        manifestsRespEdges resp) := by
  refine ⟨?_, ?_, ?_⟩
  · intro resp org_repo dep_file r1 r2 h1 h2
    cases resp with
    | none =>
      cases hqp : assocLookup org_repo.dep_file_query_params dep_file.id <;>
        simp [get_deps, hqp] at h1
    | some result =>
      cases hrep : result.repository with
      | none =>
        cases hqp : assocLookup org_repo.dep_file_query_params dep_file.id <;>
          simp [get_deps, hqp, hrep] at h1
      | some repository =>
        cases hqp : assocLookup org_repo.dep_file_query_params dep_file.id with
        | none => simp [get_deps, hqp] at h1
        | some qp =>
          simp only [get_deps, hqp, hrep] at h1 h2
          cases hf1 : assocLookup ((repository.dependencyGraphManifests.edges.foldl
              (get_deps_step dep_file) org_repo)).dep_file_deps dep_file.id with
          | none => rw [hf1] at h1; simp at h1
          | some ns1 =>
            rw [hf1] at h1
            simp only [Except.ok.injEq] at h1
            subst h1
            have hqp2 : assocLookup ((repository.dependencyGraphManifests.edges.foldl
                (get_deps_step dep_file) org_repo)).dep_file_query_params dep_file.id =
                some qp := by
              rw [get_deps_foldl_params]
              exact hqp
            simp only [hqp2] at h2
            cases hf2 : assocLookup ((repository.dependencyGraphManifests.edges.foldl
                (get_deps_step dep_file)
                (repository.dependencyGraphManifests.edges.foldl
                  (get_deps_step dep_file) org_repo))).dep_file_deps dep_file.id with
            | none => rw [hf2] at h2; simp at h2
            | some ns2 =>
              rw [hf2] at h2
              simp only [Except.ok.injEq] at h2
              subst h2
              rw [get_deps_foldl_deps, get_deps_foldl_deps]
              cases hlm : lastMatchingEdge dep_file
                  repository.dependencyGraphManifests.edges with
              | none => rfl
              | some e' => exact assocSet_assocSet_self _ _ _ _
  · intro resp org_repo r1 r2 h1 h2
    cases resp with
    | none => simp [get_org_repo_langs] at h1
    | some result =>
      cases hrep : result.repository with
      | none => simp [get_org_repo_langs, hrep] at h1
      | some repository =>
        by_cases hnp : repository.languages.pageInfo.hasNextPage = true
        · simp [get_org_repo_langs, hrep, hnp] at h1
        · simp only [get_org_repo_langs, hrep, hnp, Bool.false_eq_true, if_false,
            Except.ok.injEq] at h1 h2
          subst h1
          subst h2
          simp [langsRespEdges, hrep]
  · intro resp org_repo n r1 r2 h1 h2
    cases resp with
    | none => simp [get_dep_files] at h1
    | some result =>
      cases hrep : result.repository with
      | none => simp [get_dep_files, hrep] at h1
      | some repository =>
        by_cases hnp : repository.dependencyGraphManifests.pageInfo.hasNextPage = true
        · simp [get_dep_files, hrep, hnp] at h1
        · simp only [get_dep_files, hrep, hnp, Bool.false_eq_true, if_false,
            Except.ok.injEq] at h1 h2
          subst h1
          subst h2
          rw [get_dep_files_foldl_dep_files, get_dep_files_foldl_dep_files]
          simp [manifestsRespEdges, hrep, List.append_assoc]

/-- Witness for C5 (amended): a second identical `get_deps` call leaves
the dependency map unchanged, while second identical language and manifest
fetches append their edges again. -/
theorem c5_witness_concrete_runs :
    exDeps1.dep_file_deps = exDeps1.dep_file_deps ∧
    exLangs2.languages = exRepo0.languages ++ langsRespEdges exLangsResp ++
      langsRespEdges exLangsResp ∧
    exDFRes2.dep_files = exRepo0.dep_files ++ manifestsRespEdges exManifestsResp ++
      manifestsRespEdges exManifestsResp :=
  ⟨c5_get_deps_idempotent_fetches_append.1 exManifestsResp exRepoWithParams exManifest
      exDeps1 exDeps1 rfl rfl,
   c5_get_deps_idempotent_fetches_append.2.1 exLangsResp exRepo0 exLangs1 exLangs2 rfl rfl,
   c5_get_deps_idempotent_fetches_append.2.2 exManifestsResp exRepo0 5 exDFRes1 exDFRes2
      rfl rfl⟩

/-- C9: `get_deps` assigns `repo.dep_file_deps[dep_file.id]` only from a
returned manifest edge whose node id equals the requested manifest's id;
when no returned edge matches, a previously unset entry stays unset and
the call raises `KeyError` instead of recording an empty dependency
list. -/
theorem c9_get_deps_matching_edge_only :
    (∀ (repository : RepoManifests) (org_repo : OrgRepo) (dep_file : ManifestNode)
        (r : OrgRepo),
      assocLookup org_repo.dep_file_deps dep_file.id = none →
      get_deps (some ⟨some repository⟩) org_repo dep_file = .ok r →
      ∃ e ∈ repository.dependencyGraphManifests.edges,
        e.node.id = dep_file.id ∧
        assocLookup r.dep_file_deps dep_file.id = some e.node.dependencies.nodes) ∧
    (∀ (repository : RepoManifests) (org_repo : OrgRepo) (dep_file : ManifestNode),
      (∀ e ∈ repository.dependencyGraphManifests.edges, e.node.id ≠ dep_file.id) →
      assocLookup org_repo.dep_file_deps dep_file.id = none →
      get_deps (some ⟨some repository⟩) org_repo dep_file = .error .keyError) := by
  constructor
  · intro repository org_repo dep_file r hfresh h
    cases hqp : assocLookup org_repo.dep_file_query_params dep_file.id with
    | none => simp [get_deps, hqp] at h
    | some qp =>
      simp only [get_deps, hqp] at h
      cases hf : assocLookup ((repository.dependencyGraphManifests.edges.foldl
          (get_deps_step dep_file) org_repo)).dep_file_deps dep_file.id with
      | none => rw [hf] at h; simp at h
      | some ns =>
        rw [hf] at h
        simp only [Except.ok.injEq] at h
        subst h
        rw [get_deps_foldl_deps] at hf
        cases hlm : lastMatchingEdge dep_file repository.dependencyGraphManifests.edges with
        | none => rw [hlm] at hf; exact absurd hf (by simp [hfresh])
        | some e =>
          rw [hlm] at hf
          rw [assocLookup_assocSet_self] at hf
          have he : e ∈ repository.dependencyGraphManifests.edges ∧
              (e.node.id == dep_file.id) = true := by
            have hmem := List.mem_of_getLast?_eq_some hlm
            exact List.mem_filter.mp hmem
          refine ⟨e, he.1, beq_iff_eq.mp he.2, ?_⟩
          rw [get_deps_foldl_deps, hlm, assocLookup_assocSet_self]
  · intro repository org_repo dep_file hnomatch hfresh
    cases hqp : assocLookup org_repo.dep_file_query_params dep_file.id with
    | none => simp [get_deps, hqp]
    | some qp =>
      have hlm : lastMatchingEdge dep_file repository.dependencyGraphManifests.edges =
          none := by
        rw [lastMatchingEdge]
        rw [List.filter_eq_nil_iff.mpr]
        · rfl
        · intro e he
          simp only [Bool.not_eq_true]
          exact beq_eq_false_iff_ne.mpr (hnomatch e he)
      have hf : assocLookup ((repository.dependencyGraphManifests.edges.foldl
          (get_deps_step dep_file) org_repo)).dep_file_deps dep_file.id = none := by
        rw [get_deps_foldl_deps, hlm]
        exact hfresh
      simp [get_deps, hqp, hf]

/-- Witness for C9: against the mocked single-manifest response, the
fetched dependency nodes for `m1` come from its own matching edge, and a
fresh fetch for the unmatched manifest `m2` raises `KeyError`. -/
theorem c9_get_deps_witness :
    assocLookup exDeps1.dep_file_deps exManifest.id =
      some exManifestEdge.node.dependencies.nodes ∧
    get_deps (some ⟨some exRepository⟩) exRepoWithParams exManifest2 =
      .error .keyError := by
  constructor
  · obtain ⟨e, he, hid, hl⟩ := c9_get_deps_matching_edge_only.1 exRepository
      exRepoWithParams exManifest exDeps1 rfl rfl
    have heq : e = exManifestEdge := by
      simpa [exRepository] using he
    rw [← heq]
    exact hl
  · exact c9_get_deps_matching_edge_only.2 exRepository exRepoWithParams exManifest2
      (by decide) rfl

/-- Witness for C10 at a concrete input whose first and third rows share a
key but are not adjacent: the groups concatenate back to the input, the
third row sits in its own (third) group under the repeated key, and
adjacent groups have different keys. -/
theorem c10_group_by_witness :
    (exGroups.map (fun g => g.2)).flatten = [exRowA, exRowB, exRowA2] ∧
    rowKey exRowA2 = some (⟨"o/a", "main", "s1", none⟩ : GroupKey) ∧
    List.Chain' (fun g1 g2 => g1.1 ≠ g2.1) exGroups := by
  obtain ⟨h1, h2, h3⟩ := c10_group_by_consecutive_runs [exRowA, exRowB, exRowA2] exGroups
    (by simp [group_by_org_repo_ref_path, exRowA, exRowB, exRowA2, rowKey, exGroups])
  refine ⟨h1, ?_, h3⟩
  exact (h2 ((⟨"o/a", "main", "s1", none⟩ : GroupKey), [exRowA2]) (by decide)).2 exRowA2
    (by decide)
